import Mathlib

/-!
Shallow embedding of the customvmcpu toolchain: the virtual machine of
`src/src/libcustomvmcpu/src/runtime.rs` (register file, flat byte memory,
instruction decoding and the execute loop) and the two-pass assembler of
`src/libs/libcustomvmcpu/src/compiler.rs` (constant folding over immediate
expressions, label resolution, fixed-point emission).

Machine integers are modelled as `Nat` with explicit `% 2^32` at the points
where the source uses wrapping arithmetic.  Rust operations whose overflow
is checked (panicking in debug builds) are modelled with `Option`, `none`
standing for the panic.
-/

namespace CustomVmCpu

/-- The twelve registers of `common.rs` (`enum Register`), discriminants 0..11. -/
inductive Register where
  | R0 | R1 | R2 | R3 | R4 | R5 | R6 | R7
  | SP
  | IP
  | RA
  | ERR
deriving DecidableEq, Repr

/-- Numeric value of a register, as in `reg as usize`. -/
def Register.toNat : Register → Nat
  | .R0 => 0 | .R1 => 1 | .R2 => 2 | .R3 => 3
  | .R4 => 4 | .R5 => 5 | .R6 => 6 | .R7 => 7
  | .SP => 8 | .IP => 9 | .RA => 10 | .ERR => 11

/-- `Register::from_u8` (via `num_derive::FromPrimitive`): valid for 0..11. -/
def Register.from_u8 : Nat → Option Register
  | 0 => some .R0 | 1 => some .R1 | 2 => some .R2 | 3 => some .R3
  | 4 => some .R4 | 5 => some .R5 | 6 => some .R6 | 7 => some .R7
  | 8 => some .SP | 9 => some .IP | 10 => some .RA | 11 => some .ERR
  | _ => none

/-- The opcodes matched by `runtime.rs` (`enum OpCode`).  The snapshot of
`common.rs` under `src/` predates the immediate-address load/store opcodes
(`LWI` .. `SBI`) that `runtime.rs` and `parser.rs` use, so the variant list
follows the interpreter and the mnemonic table; the numbering below keeps
that snapshot's relative order and inserts the `*I` load/stores after `LI`
(no property proved here depends on the concrete discriminants, only on
`toNat`/`from_u8` being mutually inverse). -/
inductive OpCode where
  | CPY | LW | SW | LH | SH | LB | SB | LI
  | LWI | SWI | LHI | SHI | LBI | SBI
  | ADD | SUB | MUL | DIV
  | AND | OR | XOR | NOT
  | J | JI | JIL | JZI | JNZI | JLZI | JGZI
  | SYSCALLI
  | SRL | SLL | SRLI | SLLI
  | ADDI | SUBI | MULI | DIVI
deriving DecidableEq, Repr

/-- Numeric value of an opcode, as in `opcode as u32`. -/
def OpCode.toNat : OpCode → Nat
  | .CPY => 0 | .LW => 1 | .SW => 2 | .LH => 3 | .SH => 4 | .LB => 5 | .SB => 6
  | .LI => 7
  | .LWI => 8 | .SWI => 9 | .LHI => 10 | .SHI => 11 | .LBI => 12 | .SBI => 13
  | .ADD => 14 | .SUB => 15 | .MUL => 16 | .DIV => 17
  | .AND => 18 | .OR => 19 | .XOR => 20 | .NOT => 21
  | .J => 22 | .JI => 23 | .JIL => 24 | .JZI => 25 | .JNZI => 26
  | .JLZI => 27 | .JGZI => 28 | .SYSCALLI => 29
  | .SRL => 30 | .SLL => 31 | .SRLI => 32 | .SLLI => 33
  | .ADDI => 34 | .SUBI => 35 | .MULI => 36 | .DIVI => 37

/-- `OpCode::from_u8` (via `num_derive::FromPrimitive`): valid on the
declared discriminants, `none` otherwise. -/
def OpCode.from_u8 : Nat → Option OpCode
  | 0 => some .CPY | 1 => some .LW | 2 => some .SW | 3 => some .LH
  | 4 => some .SH | 5 => some .LB | 6 => some .SB | 7 => some .LI
  | 8 => some .LWI | 9 => some .SWI | 10 => some .LHI | 11 => some .SHI
  | 12 => some .LBI | 13 => some .SBI
  | 14 => some .ADD | 15 => some .SUB | 16 => some .MUL | 17 => some .DIV
  | 18 => some .AND | 19 => some .OR | 20 => some .XOR | 21 => some .NOT
  | 22 => some .J | 23 => some .JI | 24 => some .JIL | 25 => some .JZI
  | 26 => some .JNZI | 27 => some .JLZI | 28 => some .JGZI | 29 => some .SYSCALLI
  | 30 => some .SRL | 31 => some .SLL | 32 => some .SRLI | 33 => some .SLLI
  | 34 => some .ADDI | 35 => some .SUBI | 36 => some .MULI | 37 => some .DIVI
  | _ => none

/-- The runtime error codes of `common.rs` (`enum Error`), discriminants 0..6. -/
inductive VmError where
  | NoError
  | OpCode
  | Register
  | Syscall
  | Memory
  | ReadonlyRegister
  | DivisorNotZero
deriving DecidableEq, Repr

/-- Numeric value of an error code, as in `err as u32`. -/
def VmError.toNat : VmError → Nat
  | .NoError => 0
  | .OpCode => 1
  | .Register => 2
  | .Syscall => 3
  | .Memory => 4
  | .ReadonlyRegister => 5
  | .DivisorNotZero => 6

/-- `pub const ERROR_START_NUM: u32 = 32000`. -/
def ERROR_START_NUM : Nat := 32000

/-- `pub const BINARY_INTERPRETER_MEM_SIZE: u32 = 1024 * 1024 * 4`. -/
def BINARY_INTERPRETER_MEM_SIZE : Nat := 1024 * 1024 * 4

/-! ### The flat byte memory (`BinaryInterpreter`)

The source's `BinaryInterpreter` holds `memory: Vec<u8>`; the `Interpreter`
trait methods slice it and convert with `from_le_bytes`/`to_le_bytes`.
A slice `memory.get(pos..pos+w)` is `Some` exactly when `pos + w ≤ len`,
and `get_mut` mutates all of the range or none of it. -/

structure BinaryInterpreter where
  memory : List Nat
deriving DecidableEq, Repr

/-- Combine little-endian bytes into an unsigned integer
(`uN::from_le_bytes`). -/
def fromLeBytes : List Nat → Nat
  | [] => 0
  | b :: bs => b % 256 + 256 * fromLeBytes bs

/-- The little-endian bytes of a 32-bit value (`u32::to_le_bytes`). -/
def toLeBytes4 (v : Nat) : List Nat :=
  [v % 256, v / 256 % 256, v / 65536 % 256, v / 16777216 % 256]

/-- The little-endian bytes of a 16-bit value (`u16::to_le_bytes`). -/
def toLeBytes2 (v : Nat) : List Nat :=
  [v % 256, v / 256 % 256]

/-- `Interpreter::len` for `BinaryInterpreter`. -/
def BinaryInterpreter.len (m : BinaryInterpreter) : Nat :=
  m.memory.length

/-- `BinaryInterpreter::read_u32`: 4 bytes at `pos..pos+4`, little-endian. -/
def BinaryInterpreter.read_u32 (m : BinaryInterpreter) (pos : Nat) : Option Nat :=
  if pos + 4 ≤ m.memory.length then
    some (fromLeBytes ((m.memory.drop pos).take 4))
  else
    none

/-- `BinaryInterpreter::read_u16`: 2 bytes at `pos..pos+2`, little-endian. -/
def BinaryInterpreter.read_u16 (m : BinaryInterpreter) (pos : Nat) : Option Nat :=
  if pos + 2 ≤ m.memory.length then
    some (fromLeBytes ((m.memory.drop pos).take 2))
  else
    none

/-- `BinaryInterpreter::read_u8`: one byte at `pos`. -/
def BinaryInterpreter.read_u8 (m : BinaryInterpreter) (pos : Nat) : Option Nat :=
  if pos + 1 ≤ m.memory.length then
    some (fromLeBytes ((m.memory.drop pos).take 1))
  else
    none

/-- Overwrite the byte range starting at `pos` with `bs` (the effect of
`copy_from_slice` on the slice `pos..pos+bs.length`). -/
def writeBytes (mem : List Nat) (pos : Nat) (bs : List Nat) : List Nat :=
  mem.take pos ++ bs ++ mem.drop (pos + bs.length)

/-- `BinaryInterpreter::write_u32`.  The source returns `false` and leaves
memory untouched when `get_mut(pos..pos+4)` fails; `none` models that. -/
def BinaryInterpreter.write_u32 (m : BinaryInterpreter) (pos value : Nat) :
    Option BinaryInterpreter :=
  if pos + 4 ≤ m.memory.length then
    some ⟨writeBytes m.memory pos (toLeBytes4 value)⟩
  else
    none

/-- `BinaryInterpreter::write_u16`. -/
def BinaryInterpreter.write_u16 (m : BinaryInterpreter) (pos value : Nat) :
    Option BinaryInterpreter :=
  if pos + 2 ≤ m.memory.length then
    some ⟨writeBytes m.memory pos (toLeBytes2 value)⟩
  else
    none

/-- `BinaryInterpreter::write_u8`. -/
def BinaryInterpreter.write_u8 (m : BinaryInterpreter) (pos value : Nat) :
    Option BinaryInterpreter :=
  if pos + 1 ≤ m.memory.length then
    some ⟨writeBytes m.memory pos [value % 256]⟩
  else
    none

/-! ### Virtual machine state and register discipline -/

/-- `VirtualMachine<InterpreterImpl>`: memory, the 12-entry register file and
the `running` flag.  The register file is modelled as a function. -/
structure VirtualMachine where
  interpreter : BinaryInterpreter
  registers : Register → Nat
  running : Bool

/-- `VirtualMachine::read_register_value`. -/
def VirtualMachine.read_register_value (vm : VirtualMachine) (reg : Register) : Nat :=
  vm.registers reg

/-- `VirtualMachine::write_register_value` (internal write, no gate). -/
def VirtualMachine.write_register_value (vm : VirtualMachine) (reg : Register)
    (value : Nat) : VirtualMachine :=
  { vm with registers := fun r => if r = reg then value else vm.registers r }

/-- `VirtualMachine::read_user_register_value` (same as the internal read). -/
def VirtualMachine.read_user_register_value (vm : VirtualMachine) (reg : Register) : Nat :=
  vm.read_register_value reg

/-- `VirtualMachine::is_readonly`: exactly `IP` and `ERR`. -/
def VirtualMachine.is_readonly (reg : Register) : Bool :=
  match reg with
  | .IP | .ERR => true
  | _ => false

/-- `VirtualMachine::write_error`. -/
def VirtualMachine.write_error (vm : VirtualMachine) (err : VmError) : VirtualMachine :=
  vm.write_register_value .ERR err.toNat

/-- `VirtualMachine::write_user_register_value`: the user-write gate. -/
def VirtualMachine.write_user_register_value (vm : VirtualMachine) (reg : Register)
    (value : Nat) : VirtualMachine :=
  if VirtualMachine.is_readonly reg then
    vm.write_error .ReadonlyRegister
  else
    vm.write_register_value reg value

/-- `VirtualMachine::new`: zero registers except `SP = interpreter.len()`,
not running. -/
def VirtualMachine.new (interpreter : BinaryInterpreter) : VirtualMachine :=
  let vm : VirtualMachine :=
    { interpreter := interpreter, registers := fun _ => 0, running := false }
  vm.write_register_value .SP interpreter.len

/-! ### Instruction field extraction -/

/-- `get_opcode`: bits 31..24. -/
def get_opcode (instruction : Nat) : Nat :=
  (instruction &&& 0xFF000000) >>> 24

/-- `get_immediate`: bits 23..0. -/
def get_immediate (instruction : Nat) : Nat :=
  instruction &&& 0x00FFFFFF

/-- `get_registers`: bits 3..0. -/
def get_registers (instruction : Nat) : Nat :=
  instruction &&& 0x0000000F

/-- `get_two_registers`: bits 23..20 and bits 3..0. -/
def get_two_registers (instruction : Nat) : Nat × Nat :=
  ((instruction &&& 0x00F00000) >>> 20, instruction &&& 0x0000000F)

/-- `get_register_and_immediate`: bits 23..20 and bits 19..0. -/
def get_register_and_immediate (instruction : Nat) : Nat × Nat :=
  ((instruction &&& 0x00F00000) >>> 20, instruction &&& 0x000FFFFF)

/-- `get_u32_from_immediate`: sign extension of a two's-complement
immediate; `!bitmask` on `u32` is the 32-bit complement of the mask. -/
def get_u32_from_immediate (imm bitmask check_negative_bitmask : Nat) : Nat :=
  if imm &&& check_negative_bitmask = 0 then
    imm
  else
    imm ||| (0xFFFFFFFF ^^^ bitmask)

/-- `get_register_and_twos_complement_immediate`: bits 23..20, and the
20-bit immediate sign-extended (sign bit `0x00080000`). -/
def get_register_and_twos_complement_immediate (instruction : Nat) : Nat × Nat :=
  ((instruction &&& 0x00F00000) >>> 20,
   get_u32_from_immediate (instruction &&& 0x000FFFFF) 0x000FFFFF 0x00080000)

/-! ### Instruction encoding helpers (`runtime::utils`) -/

/-- `utils::create_instruction_register`. -/
def create_instruction_register (opcode : OpCode) (reg : Register) : Nat :=
  (opcode.toNat <<< 24) ||| reg.toNat

/-- `utils::create_instruction_immediate`. -/
def create_instruction_immediate (opcode : OpCode) (imm : Nat) : Nat :=
  (opcode.toNat <<< 24) ||| imm

/-- `utils::create_instruction_register_and_immediate`. -/
def create_instruction_register_and_immediate (opcode : OpCode) (reg : Register)
    (imm : Nat) : Nat :=
  (opcode.toNat <<< 24) ||| (reg.toNat <<< 20) ||| (imm &&& 0x000FFFFF)

/-- `utils::create_instruction_two_registers`. -/
def create_instruction_two_registers (opcode : OpCode) (reg0 reg1 : Register) : Nat :=
  (opcode.toNat <<< 24) ||| (reg0.toNat <<< 20) ||| reg1.toNat

/-! ### Handler combinators

The closures passed to `binary_register_operation_write0` and
`binary_register_and_immediate_operation_write0` take the machine and the
two operand values and produce the value to store; `DIV`/`DIVI` also set
`ERR`, and the shift closures can panic in a debug build (shift amount
overflow), which `none` models. -/

/-- `VirtualMachine::write_next_instruction_address`: `RA := IP + 4` with
an unchecked add (`none` models the debug-build overflow panic). -/
def write_next_instruction_address (vm : VirtualMachine) : Option VirtualMachine :=
  if vm.read_register_value .IP + 4 < 4294967296 then
    some (vm.write_register_value .RA (vm.read_register_value .IP + 4))
  else
    none

/-- `VirtualMachine::syscall`: `0` halts, anything else is `ERR = Syscall`. -/
def VirtualMachine.syscall (vm : VirtualMachine) (n : Nat) : VirtualMachine :=
  match n with
  | 0 => { vm with running := false }
  | _ => vm.write_register_value .ERR VmError.Syscall.toNat

/-- `VirtualMachine::unary_check_write_ip`: conditional jump to `imm - 4`. -/
def unary_check_write_ip (vm : VirtualMachine) (instruction : Nat)
    (unary_op : Nat → Bool) : VirtualMachine :=
  match Register.from_u8 (get_register_and_immediate instruction).1 with
  | some reg_value =>
      if unary_op (vm.read_user_register_value reg_value) then
        vm.write_register_value .IP
          (((get_register_and_immediate instruction).2 + 4294967296 - 4) % 4294967296)
      else
        vm
  | none => vm.write_error .Register

/-- `VirtualMachine::binary_register_and_immediate_operation_write0`. -/
def binary_register_and_immediate_operation_write0 (vm : VirtualMachine)
    (instruction : Nat) (binary_op : VirtualMachine → Nat → Nat → Option (VirtualMachine × Nat)) :
    Option VirtualMachine :=
  match Register.from_u8 (get_register_and_immediate instruction).1 with
  | some reg_value =>
      match binary_op vm (vm.read_user_register_value reg_value)
          (get_register_and_immediate instruction).2 with
      | some q => some (q.1.write_user_register_value reg_value q.2)
      | none => none
  | none => some (vm.write_error .Register)

/-- `VirtualMachine::binary_register_and_immediate_operation`. -/
def binary_register_and_immediate_operation (vm : VirtualMachine)
    (instruction : Nat) (binary_op : VirtualMachine → Register → Nat → VirtualMachine) :
    VirtualMachine :=
  match Register.from_u8 (get_register_and_immediate instruction).1 with
  | some reg_value => binary_op vm reg_value (get_register_and_immediate instruction).2
  | none => vm.write_error .Register

/-- `VirtualMachine::binary_register_operation_write0`. -/
def binary_register_operation_write0 (vm : VirtualMachine) (instruction : Nat)
    (binary_op : VirtualMachine → Nat → Nat → Option (VirtualMachine × Nat)) :
    Option VirtualMachine :=
  match Register.from_u8 (get_two_registers instruction).1,
      Register.from_u8 (get_two_registers instruction).2 with
  | some reg_value0, some reg_value1 =>
      match binary_op vm (vm.read_user_register_value reg_value0)
          (vm.read_user_register_value reg_value1) with
      | some q => some (q.1.write_user_register_value reg_value0 q.2)
      | none => none
  | _, _ => some (vm.write_error .Register)

/-- `VirtualMachine::binary_register_operation`. -/
def binary_register_operation (vm : VirtualMachine) (instruction : Nat)
    (binary_op : VirtualMachine → Register → Register → VirtualMachine) :
    VirtualMachine :=
  match Register.from_u8 (get_two_registers instruction).1,
      Register.from_u8 (get_two_registers instruction).2 with
  | some reg_value0, some reg_value1 => binary_op vm reg_value0 reg_value1
  | _, _ => vm.write_error .Register

/-- The `DIV`/`DIVI` value closure: a zero divisor writes
`ERR = DivisorNotZero` and produces 0, otherwise unsigned division. -/
def divOp (vm : VirtualMachine) (x y : Nat) : Option (VirtualMachine × Nat) :=
  some (if y = 0 then (vm.write_error .DivisorNotZero, 0) else (vm, x / y))

/-- The `SRL`/`SRLI` value closure: `x >> y` on `u32` (debug builds panic
for `y ≥ 32`, modelled by `none`; release builds would mask the amount). -/
def srlOp (vm : VirtualMachine) (x y : Nat) : Option (VirtualMachine × Nat) :=
  if y < 32 then some (vm, x >>> y) else none

/-- The `SLL`/`SLLI` value closure: `x << y` on `u32` (debug builds panic
for `y ≥ 32`, modelled by `none`; release builds would mask the amount). -/
def sllOp (vm : VirtualMachine) (x y : Nat) : Option (VirtualMachine × Nat) :=
  if y < 32 then some (vm, (x <<< y) % 4294967296) else none

/-- Signed `< 0` on a `u32` bit pattern (`i32::from_le_bytes(to_le_bytes x) < 0`). -/
def i32Neg (x : Nat) : Bool :=
  x &&& 0x80000000 ≠ 0

/-- Signed `> 0` on a `u32` bit pattern. -/
def i32Pos (x : Nat) : Bool :=
  x &&& 0x80000000 = 0 && x ≠ 0

/-! ### The instruction dispatcher (`interpret_instruction`) -/

/-- `VirtualMachine::interpret_instruction`: decode the opcode byte and
dispatch; an unknown opcode sets `ERR = OpCode`.  `none` models a host
panic (overflow-checked shift / unchecked `IP + 4`). -/
def interpret_instruction (vm : VirtualMachine) (instruction : Nat) :
    Option VirtualMachine :=
  match OpCode.from_u8 (get_opcode instruction) with
  | none => some (vm.write_error .OpCode)
  | some opcode =>
    match opcode with
    | .SYSCALLI =>
        match write_next_instruction_address vm with
        | some vm1 => some (vm1.syscall (get_immediate instruction))
        | none => none
    | .CPY =>
        some (binary_register_operation vm instruction (fun this reg0 reg1 =>
          this.write_user_register_value reg0 (this.read_user_register_value reg1)))
    | .LW =>
        some (binary_register_operation vm instruction (fun this reg0 reg1 =>
          match this.interpreter.read_u32 (this.read_user_register_value reg1) with
          | some result => this.write_user_register_value reg0 result
          | none => this.write_error .Memory))
    | .SW =>
        some (binary_register_operation vm instruction (fun this reg0 reg1 =>
          match this.interpreter.write_u32 (this.read_user_register_value reg1)
              (this.read_user_register_value reg0) with
          | some m => { this with interpreter := m }
          | none => this.write_error .Memory))
    | .LH =>
        some (binary_register_operation vm instruction (fun this reg0 reg1 =>
          match this.interpreter.read_u16 (this.read_user_register_value reg1) with
          | some result => this.write_user_register_value reg0 result
          | none => this.write_error .Memory))
    | .SH =>
        some (binary_register_operation vm instruction (fun this reg0 reg1 =>
          match this.interpreter.write_u16 (this.read_user_register_value reg1)
              (this.read_user_register_value reg0 &&& 0x0000FFFF) with
          | some m => { this with interpreter := m }
          | none => this.write_error .Memory))
    | .LB =>
        some (binary_register_operation vm instruction (fun this reg0 reg1 =>
          match this.interpreter.read_u8 (this.read_user_register_value reg1) with
          | some result => this.write_user_register_value reg0 result
          | none => this.write_error .Memory))
    | .SB =>
        some (binary_register_operation vm instruction (fun this reg0 reg1 =>
          match this.interpreter.write_u8 (this.read_user_register_value reg1)
              (this.read_user_register_value reg0 &&& 0x000000FF) with
          | some m => { this with interpreter := m }
          | none => this.write_error .Memory))
    | .LI =>
        match Register.from_u8 (get_register_and_twos_complement_immediate instruction).1 with
        | some reg_value0 =>
            some (vm.write_user_register_value reg_value0
              (get_register_and_twos_complement_immediate instruction).2)
        | none => some (vm.write_error .Register)
    | .LWI =>
        some (binary_register_and_immediate_operation vm instruction (fun this reg imm =>
          match this.interpreter.read_u32 imm with
          | some result => this.write_user_register_value reg result
          | none => this.write_error .Memory))
    | .SWI =>
        some (binary_register_and_immediate_operation vm instruction (fun this reg imm =>
          match this.interpreter.write_u32 imm (this.read_user_register_value reg) with
          | some m => { this with interpreter := m }
          | none => this.write_error .Memory))
    | .LHI =>
        some (binary_register_and_immediate_operation vm instruction (fun this reg imm =>
          match this.interpreter.read_u16 imm with
          | some result => this.write_user_register_value reg result
          | none => this.write_error .Memory))
    | .SHI =>
        some (binary_register_and_immediate_operation vm instruction (fun this reg imm =>
          match this.interpreter.write_u16 imm (this.read_user_register_value reg &&& 0x0000FFFF) with
          | some m => { this with interpreter := m }
          | none => this.write_error .Memory))
    | .LBI =>
        some (binary_register_and_immediate_operation vm instruction (fun this reg imm =>
          match this.interpreter.read_u8 imm with
          | some result => this.write_user_register_value reg result
          | none => this.write_error .Memory))
    | .SBI =>
        some (binary_register_and_immediate_operation vm instruction (fun this reg imm =>
          match this.interpreter.write_u8 imm (this.read_user_register_value reg &&& 0x000000FF) with
          | some m => { this with interpreter := m }
          | none => this.write_error .Memory))
    | .ADD =>
        binary_register_operation_write0 vm instruction
          (fun this x y => some (this, (x + y) % 4294967296))
    | .SUB =>
        binary_register_operation_write0 vm instruction
          (fun this x y => some (this, (x + (4294967296 - y % 4294967296)) % 4294967296))
    | .MUL =>
        binary_register_operation_write0 vm instruction
          (fun this x y => some (this, (x * y) % 4294967296))
    | .DIV =>
        binary_register_operation_write0 vm instruction divOp
    | .ADDI =>
        binary_register_and_immediate_operation_write0 vm instruction
          (fun this x y => some (this, (x + y) % 4294967296))
    | .SUBI =>
        binary_register_and_immediate_operation_write0 vm instruction
          (fun this x y => some (this, (x + (4294967296 - y % 4294967296)) % 4294967296))
    | .MULI =>
        binary_register_and_immediate_operation_write0 vm instruction
          (fun this x y => some (this, (x * y) % 4294967296))
    | .DIVI =>
        binary_register_and_immediate_operation_write0 vm instruction divOp
    | .J =>
        match Register.from_u8 (get_registers instruction) with
        | some reg_value =>
            some (vm.write_register_value .IP
              ((vm.read_user_register_value reg_value + 4294967296 - 4) % 4294967296))
        | none => some (vm.write_error .Register)
    | .JI =>
        some (vm.write_register_value .IP
          ((get_immediate instruction + 4294967296 - 4) % 4294967296))
    | .JIL =>
        some ((vm.write_register_value .RA
            ((vm.read_register_value .IP + 4) % 4294967296)).write_register_value .IP
          ((get_immediate instruction + 4294967296 - 4) % 4294967296))
    | .JZI =>
        some (unary_check_write_ip vm instruction (fun x => x = 0))
    | .JNZI =>
        some (unary_check_write_ip vm instruction (fun x => x ≠ 0))
    | .JLZI =>
        some (unary_check_write_ip vm instruction i32Neg)
    | .JGZI =>
        some (unary_check_write_ip vm instruction i32Pos)
    | .AND =>
        binary_register_operation_write0 vm instruction
          (fun this x y => some (this, x &&& y))
    | .OR =>
        binary_register_operation_write0 vm instruction
          (fun this x y => some (this, x ||| y))
    | .XOR =>
        binary_register_operation_write0 vm instruction
          (fun this x y => some (this, x ^^^ y))
    | .NOT =>
        match Register.from_u8 (get_registers instruction) with
        | some reg_value =>
            some (vm.write_user_register_value reg_value
              (vm.read_user_register_value reg_value ^^^ 0xFFFFFFFF))
        | none => some (vm.write_error .Register)
    | .SRL =>
        binary_register_operation_write0 vm instruction srlOp
    | .SLL =>
        binary_register_operation_write0 vm instruction sllOp
    | .SRLI =>
        binary_register_and_immediate_operation_write0 vm instruction srlOp
    | .SLLI =>
        binary_register_and_immediate_operation_write0 vm instruction sllOp

/-! ### The execute loop -/

/-- Outcome of running the (possibly non-terminating) execute loop with a
fuel bound: a returned `u32` together with the final machine state, a host
panic, or fuel exhaustion. -/
inductive ExecOutcome where
  | ret (value : Nat) (final : VirtualMachine)
  | panicked
  | outOfFuel

/-- The value computed after the loop breaks: `R1` when `ERR == NoError`,
otherwise `ERR + ERROR_START_NUM`. -/
def VirtualMachine.exitValue (vm : VirtualMachine) : Nat :=
  if vm.read_register_value .ERR = VmError.NoError.toNat then
    vm.read_register_value .R1
  else
    vm.read_register_value .ERR + ERROR_START_NUM

/-- Stop the loop at state `vm` and compute the return value. -/
def finishRun (vm : VirtualMachine) : ExecOutcome :=
  .ret vm.exitValue vm

/-- The body of `VirtualMachine::execute`: fetch at `IP`, interpret, break
on a failed fetch (`ERR = Memory`), on `ERR ≠ NoError` or on `!running`,
else `IP ← IP + 4` (wrapping) and repeat. -/
def execLoop : Nat → VirtualMachine → ExecOutcome
  | 0, _ => .outOfFuel
  | fuel + 1, vm =>
    match vm.interpreter.read_u32 (vm.read_register_value .IP) with
    | some parsed_instruction =>
        match interpret_instruction vm parsed_instruction with
        | none => .panicked
        | some vm1 =>
            if vm1.read_register_value .ERR ≠ VmError.NoError.toNat ∨ vm1.running = false then
              finishRun vm1
            else
              execLoop fuel (vm1.write_register_value .IP
                ((vm1.read_register_value .IP + 4) % 4294967296))
    | none => finishRun (vm.write_error .Memory)

/-- `VirtualMachine::execute`: set `running = true`, `IP = pos`,
`ERR = NoError`, then run the loop. -/
def execute (fuel : Nat) (vm : VirtualMachine) (pos : Nat) : ExecOutcome :=
  let vm1 := { vm with running := true }
  let vm2 := vm1.write_register_value .IP pos
  let vm3 := vm2.write_register_value .ERR VmError.NoError.toNat
  execLoop fuel vm3

/-- The returned value of an outcome, when the loop stopped. -/
def ExecOutcome.retValue : ExecOutcome → Option Nat
  | .ret v _ => some v
  | _ => none

/-- A register of the final state, when the loop stopped. -/
def ExecOutcome.finalReg (o : ExecOutcome) (reg : Register) : Option Nat :=
  match o with
  | .ret _ vm => some (vm.read_register_value reg)
  | _ => none

/-- Whether the outcome is a host panic. -/
def ExecOutcome.isPanic : ExecOutcome → Bool
  | .panicked => true
  | _ => false

/-- Lay out a list of instruction words as little-endian bytes
(`BinaryInterpreter::new_with_program` writes word `i` at byte `4*i`). -/
def wordsToBytes : List Nat → List Nat
  | [] => []
  | w :: ws => toLeBytes4 w ++ wordsToBytes ws

/-- A machine over the given bytes (a small `Interpreter` instance; the
4 MiB `BinaryInterpreter` zero-pads to `BINARY_INTERPRETER_MEM_SIZE`,
which only enlarges memory). -/
def vmOfBytes (bytes : List Nat) : VirtualMachine :=
  VirtualMachine.new ⟨bytes⟩

/-! ### Arithmetic views of the field extractors -/

theorem Nat.and_shiftRight_distrib (x y n : Nat) :
    (x &&& y) >>> n = (x >>> n) &&& (y >>> n) := by
  apply Nat.eq_of_testBit_eq
  intro i
  simp [Nat.testBit_shiftRight, Nat.testBit_and]

theorem get_opcode_eq (x : Nat) : get_opcode x = x / 16777216 % 256 := by
  unfold get_opcode
  rw [Nat.and_shiftRight_distrib]
  have h1 : (0xFF000000 : Nat) >>> 24 = 255 := by decide
  rw [h1]
  have h2 := Nat.and_pow_two_sub_one_eq_mod (x >>> 24) 8
  norm_num at h2
  rw [h2, Nat.shiftRight_eq_div_pow]

theorem get_immediate_eq (x : Nat) : get_immediate x = x % 16777216 := by
  unfold get_immediate
  have h := Nat.and_pow_two_sub_one_eq_mod x 24
  norm_num at h
  rw [h]

theorem get_registers_eq (x : Nat) : get_registers x = x % 16 := by
  unfold get_registers
  have h := Nat.and_pow_two_sub_one_eq_mod x 4
  norm_num at h
  rw [h]

theorem get_two_registers_eq (x : Nat) :
    get_two_registers x = (x / 1048576 % 16, x % 16) := by
  unfold get_two_registers
  rw [Nat.and_shiftRight_distrib]
  have h1 : (0x00F00000 : Nat) >>> 20 = 15 := by decide
  rw [h1]
  have h2 := Nat.and_pow_two_sub_one_eq_mod (x >>> 20) 4
  have h3 := Nat.and_pow_two_sub_one_eq_mod x 4
  norm_num at h2 h3
  rw [h2, h3, Nat.shiftRight_eq_div_pow]

theorem get_register_and_immediate_eq (x : Nat) :
    get_register_and_immediate x = (x / 1048576 % 16, x % 1048576) := by
  unfold get_register_and_immediate
  rw [Nat.and_shiftRight_distrib]
  have h1 : (0x00F00000 : Nat) >>> 20 = 15 := by decide
  rw [h1]
  have h2 := Nat.and_pow_two_sub_one_eq_mod (x >>> 20) 4
  have h3 := Nat.and_pow_two_sub_one_eq_mod x 20
  norm_num at h2 h3
  rw [h2, h3, Nat.shiftRight_eq_div_pow]

/-- The sign-extension helper on a 20-bit immediate: values below `2^19`
pass through, values with bit 19 set gain the high mask `0xFFF00000`. -/
theorem get_u32_from_immediate_eq (m : Nat) (h : m < 1048576) :
    get_u32_from_immediate m 0x000FFFFF 0x00080000 =
      if m < 524288 then m else m + 0xFFF00000 := by
  unfold get_u32_from_immediate
  have hxor : (0xFFFFFFFF : Nat) ^^^ 0x000FFFFF = 0xFFF00000 := by decide
  have hsign : (m &&& 0x00080000 = 0) ↔ m < 524288 := by
    have hd := Nat.testBit_to_div_mod (x := m) (i := 19)
    have h80 : (0x00080000 : Nat) = 2 ^ 19 := by norm_num
    rw [h80, Nat.and_two_pow]
    rcases hb : Nat.testBit m 19 with _ | _ <;> rw [hb] at hd <;> simp [hb] <;>
      simp at hd <;> omega
  have hor : m ||| 0xFFF00000 = m + 0xFFF00000 := by
    rw [Nat.lor_comm]
    have h2 : (0xFFF00000 : Nat) = 2 ^ 20 * 0xFFF := by norm_num
    have h3 : m < 2 ^ 20 := by norm_num; omega
    rw [h2, ← Nat.mul_add_lt_is_or h3, Nat.add_comm]
  rw [hxor, hor]
  split
  · rename_i hc
    rw [if_pos (hsign.mp hc)]
  · rename_i hc
    rw [if_neg (fun hlt => hc (hsign.mpr hlt))]

theorem get_register_and_twos_complement_immediate_eq (x : Nat) :
    get_register_and_twos_complement_immediate x =
      (x / 1048576 % 16,
       if x % 1048576 < 524288 then x % 1048576 else x % 1048576 + 0xFFF00000) := by
  unfold get_register_and_twos_complement_immediate
  rw [Nat.and_shiftRight_distrib]
  have h1 : (0x00F00000 : Nat) >>> 20 = 15 := by decide
  rw [h1]
  have h2 := Nat.and_pow_two_sub_one_eq_mod (x >>> 20) 4
  have h3 := Nat.and_pow_two_sub_one_eq_mod x 20
  norm_num at h2 h3
  rw [h2, h3, Nat.shiftRight_eq_div_pow]
  norm_num
  rw [get_u32_from_immediate_eq (x % 1048576) (Nat.mod_lt x (by norm_num))]

/-! ### Decoding the encoders -/

theorem opCode_toNat_lt (op : OpCode) : op.toNat < 256 := by
  cases op <;> decide

theorem register_toNat_lt (r : Register) : r.toNat < 16 := by
  cases r <;> decide

theorem opCode_from_u8_toNat (op : OpCode) : OpCode.from_u8 op.toNat = some op := by
  cases op <;> rfl

theorem register_from_u8_toNat (r : Register) : Register.from_u8 r.toNat = some r := by
  cases r <;> rfl

theorem create_two_registers_eq (op : OpCode) (r0 r1 : Register) :
    create_instruction_two_registers op r0 r1 =
      op.toNat * 16777216 + r0.toNat * 1048576 + r1.toNat := by
  unfold create_instruction_two_registers
  rw [Nat.shiftLeft_eq, Nat.shiftLeft_eq]
  have hb : r0.toNat * 2 ^ 20 < 2 ^ 24 := by
    have := register_toNat_lt r0; norm_num; omega
  have h1 : op.toNat * 2 ^ 24 ||| r0.toNat * 2 ^ 20 =
      op.toNat * 2 ^ 24 + r0.toNat * 2 ^ 20 := by
    rw [mul_comm (OpCode.toNat op), ← Nat.mul_add_lt_is_or hb, mul_comm]
  rw [h1]
  have hsum : op.toNat * 2 ^ 24 + r0.toNat * 2 ^ 20 =
      2 ^ 20 * (op.toNat * 16 + r0.toNat) := by ring
  have hc : r1.toNat < 2 ^ 20 := by
    have := register_toNat_lt r1; norm_num; omega
  rw [hsum, ← Nat.mul_add_lt_is_or hc]
  ring

theorem create_register_and_immediate_eq (op : OpCode) (r : Register) (imm : Nat) :
    create_instruction_register_and_immediate op r imm =
      op.toNat * 16777216 + r.toNat * 1048576 + imm % 1048576 := by
  unfold create_instruction_register_and_immediate
  rw [Nat.shiftLeft_eq, Nat.shiftLeft_eq]
  have himm := Nat.and_pow_two_sub_one_eq_mod imm 20
  norm_num at himm
  rw [himm]
  have hb : r.toNat * 2 ^ 20 < 2 ^ 24 := by
    have := register_toNat_lt r; norm_num; omega
  have h1 : op.toNat * 2 ^ 24 ||| r.toNat * 2 ^ 20 =
      op.toNat * 2 ^ 24 + r.toNat * 2 ^ 20 := by
    rw [mul_comm (OpCode.toNat op), ← Nat.mul_add_lt_is_or hb, mul_comm]
  rw [h1]
  have hsum : op.toNat * 2 ^ 24 + r.toNat * 2 ^ 20 =
      2 ^ 20 * (op.toNat * 16 + r.toNat) := by ring
  have hc : imm % 1048576 < 2 ^ 20 := by
    have := Nat.mod_lt imm (y := 1048576) (by norm_num); norm_num; omega
  rw [hsum, ← Nat.mul_add_lt_is_or hc]
  ring

theorem create_register_eq (op : OpCode) (r : Register) :
    create_instruction_register op r = op.toNat * 16777216 + r.toNat := by
  unfold create_instruction_register
  rw [Nat.shiftLeft_eq]
  have hc : r.toNat < 2 ^ 24 := by
    have := register_toNat_lt r; norm_num; omega
  rw [mul_comm, ← Nat.mul_add_lt_is_or hc, mul_comm]

theorem create_immediate_eq (op : OpCode) (imm : Nat) (h : imm < 16777216) :
    create_instruction_immediate op imm = op.toNat * 16777216 + imm := by
  unfold create_instruction_immediate
  rw [Nat.shiftLeft_eq]
  have hc : imm < 2 ^ 24 := by norm_num; omega
  rw [mul_comm, ← Nat.mul_add_lt_is_or hc, mul_comm]

/-! ### Basic state lemmas -/

@[simp] theorem read_register_write (vm : VirtualMachine) (reg : Register) (v : Nat)
    (r : Register) :
    (vm.write_register_value reg v).read_register_value r =
      if r = reg then v else vm.read_register_value r := rfl

@[simp] theorem interpreter_write_register (vm : VirtualMachine) (reg : Register) (v : Nat) :
    (vm.write_register_value reg v).interpreter = vm.interpreter := rfl

@[simp] theorem running_write_register (vm : VirtualMachine) (reg : Register) (v : Nat) :
    (vm.write_register_value reg v).running = vm.running := rfl

@[simp] theorem read_register_set_interpreter (vm : VirtualMachine)
    (m : BinaryInterpreter) (r : Register) :
    ({ vm with interpreter := m } : VirtualMachine).read_register_value r =
      vm.read_register_value r := rfl

@[simp] theorem read_user_eq_read (vm : VirtualMachine) (r : Register) :
    vm.read_user_register_value r = vm.read_register_value r := rfl

/-! ### The error register only moves to a machine-error code

`ERR` is written through `write_error` (always with one of the six error
codes) and is protected from user writes; every step therefore leaves `ERR`
alone or puts a value in `1..6` into it. -/

/-- One dispatch step leaves `ERR` unchanged or sets a code in `1..6`. -/
def ErrStep (vm vm' : VirtualMachine) : Prop :=
  vm'.read_register_value .ERR = vm.read_register_value .ERR ∨
    (1 ≤ vm'.read_register_value .ERR ∧ vm'.read_register_value .ERR ≤ 6)

theorem errStep_refl (vm : VirtualMachine) : ErrStep vm vm := Or.inl rfl

theorem errStep_trans {vm vm1 vm2 : VirtualMachine}
    (h1 : ErrStep vm vm1) (h2 : ErrStep vm1 vm2) : ErrStep vm vm2 := by
  rcases h2 with h2 | h2
  · rcases h1 with h1 | h1
    · exact Or.inl (h2.trans h1)
    · exact Or.inr (h2 ▸ h1)
  · exact Or.inr h2

theorem errStep_write_ne (vm : VirtualMachine) (reg : Register) (v : Nat)
    (h : reg ≠ .ERR) : ErrStep vm (vm.write_register_value reg v) := by
  left
  simp only [read_register_write]
  rw [if_neg (fun he => h he.symm)]

theorem errStep_write_error (vm : VirtualMachine) (err : VmError)
    (h : err ≠ .NoError) : ErrStep vm (vm.write_error err) := by
  right
  unfold VirtualMachine.write_error
  simp only [read_register_write, if_pos rfl]
  cases err <;> simp [VmError.toNat] at h ⊢

theorem errStep_write_user (vm : VirtualMachine) (reg : Register) (v : Nat) :
    ErrStep vm (vm.write_user_register_value reg v) := by
  unfold VirtualMachine.write_user_register_value
  split
  · exact errStep_write_error vm .ReadonlyRegister (by simp)
  · apply errStep_write_ne
    intro he
    subst he
    simp [VirtualMachine.is_readonly] at *

theorem errStep_set_interpreter (vm : VirtualMachine) (m : BinaryInterpreter) :
    ErrStep vm { vm with interpreter := m } := Or.inl rfl

theorem errStep_unary_check_write_ip (vm : VirtualMachine) (instruction : Nat)
    (p : Nat → Bool) : ErrStep vm (unary_check_write_ip vm instruction p) := by
  unfold unary_check_write_ip
  cases Register.from_u8 (get_register_and_immediate instruction).1 with
  | some r =>
      simp only
      split
      · exact errStep_write_ne vm .IP _ (by simp)
      · exact errStep_refl vm
  | none => exact errStep_write_error vm .Register (by simp)

theorem errStep_binary_register_operation (vm : VirtualMachine) (instruction : Nat)
    (op : VirtualMachine → Register → Register → VirtualMachine)
    (hop : ∀ w r0 r1, ErrStep w (op w r0 r1)) :
    ErrStep vm (binary_register_operation vm instruction op) := by
  unfold binary_register_operation
  cases Register.from_u8 (get_two_registers instruction).1 with
  | some r0 =>
      cases Register.from_u8 (get_two_registers instruction).2 with
      | some r1 => exact hop vm r0 r1
      | none => exact errStep_write_error vm .Register (by simp)
  | none => exact errStep_write_error vm .Register (by simp)

theorem errStep_binary_register_and_immediate_operation (vm : VirtualMachine)
    (instruction : Nat) (op : VirtualMachine → Register → Nat → VirtualMachine)
    (hop : ∀ w r i, ErrStep w (op w r i)) :
    ErrStep vm (binary_register_and_immediate_operation vm instruction op) := by
  unfold binary_register_and_immediate_operation
  cases Register.from_u8 (get_register_and_immediate instruction).1 with
  | some r => exact hop vm r _
  | none => exact errStep_write_error vm .Register (by simp)

theorem errStep_binary_register_operation_write0 (vm : VirtualMachine)
    (instruction : Nat)
    (op : VirtualMachine → Nat → Nat → Option (VirtualMachine × Nat))
    (hop : ∀ w x y q, op w x y = some q → ErrStep w q.1) (vm' : VirtualMachine)
    (h : binary_register_operation_write0 vm instruction op = some vm') :
    ErrStep vm vm' := by
  unfold binary_register_operation_write0 at h
  rcases h0 : Register.from_u8 (get_two_registers instruction).1 with _ | r0 <;>
    rw [h0] at h
  · rcases h1 : Register.from_u8 (get_two_registers instruction).2 with _ | r1 <;>
      rw [h1] at h <;> simp only at h <;> injection h with h <;> subst h
    · exact errStep_write_error vm .Register (by simp)
    · exact errStep_write_error vm .Register (by simp)
  · rcases h1 : Register.from_u8 (get_two_registers instruction).2 with _ | r1 <;>
      rw [h1] at h <;> simp only at h
    · injection h with h
      subst h
      exact errStep_write_error vm .Register (by simp)
    · rcases hq : op vm (vm.read_user_register_value r0) (vm.read_user_register_value r1)
        with _ | q <;> rw [hq] at h <;> simp only at h
      · exact absurd h (by simp)
      · injection h with h
        subst h
        exact errStep_trans (hop _ _ _ _ hq) (errStep_write_user _ _ _)

theorem errStep_binary_register_and_immediate_operation_write0 (vm : VirtualMachine)
    (instruction : Nat)
    (op : VirtualMachine → Nat → Nat → Option (VirtualMachine × Nat))
    (hop : ∀ w x y q, op w x y = some q → ErrStep w q.1) (vm' : VirtualMachine)
    (h : binary_register_and_immediate_operation_write0 vm instruction op = some vm') :
    ErrStep vm vm' := by
  unfold binary_register_and_immediate_operation_write0 at h
  rcases h0 : Register.from_u8 (get_register_and_immediate instruction).1 with _ | r <;>
    rw [h0] at h <;> simp only at h
  · injection h with h
    subst h
    exact errStep_write_error vm .Register (by simp)
  · rcases hq : op vm (vm.read_user_register_value r) (get_register_and_immediate instruction).2
      with _ | q <;> rw [hq] at h <;> simp only at h
    · exact absurd h (by simp)
    · injection h with h
      subst h
      exact errStep_trans (hop _ _ _ _ hq) (errStep_write_user _ _ _)

theorem errStep_syscall (vm : VirtualMachine) (n : Nat) :
    ErrStep vm (vm.syscall n) := by
  unfold VirtualMachine.syscall
  cases n with
  | zero => exact Or.inl rfl
  | succ k =>
      right
      simp [read_register_write, VmError.toNat]

theorem errStep_write_next_instruction_address (vm vm1 : VirtualMachine)
    (h : write_next_instruction_address vm = some vm1) : ErrStep vm vm1 := by
  unfold write_next_instruction_address at h
  split at h
  · injection h with h
    subst h
    exact errStep_write_ne vm .RA _ (by simp)
  · exact absurd h (by simp)

/-- Every successful dispatch step leaves `ERR` unchanged or sets one of
the six machine-error codes. -/
theorem interpret_instruction_errStep (vm : VirtualMachine) (instruction : Nat)
    (vm' : VirtualMachine) (h : interpret_instruction vm instruction = some vm') :
    ErrStep vm vm' := by
  unfold interpret_instruction at h
  rcases hop : OpCode.from_u8 (get_opcode instruction) with _ | opcode <;>
    rw [hop] at h <;> simp only at h
  · injection h with h
    subst h
    exact errStep_write_error vm .OpCode (by simp)
  · cases opcode
    case SYSCALLI =>
      rcases hw : write_next_instruction_address vm with _ | vm1 <;>
        rw [hw] at h <;> simp only at h
      · exact absurd h (by simp)
      · injection h with h
        subst h
        exact errStep_trans (errStep_write_next_instruction_address vm vm1 hw)
          (errStep_syscall vm1 _)
    case CPY =>
      injection h with h
      subst h
      exact errStep_binary_register_operation vm _ _
        (fun w r0 r1 => errStep_write_user w r0 _)
    case LW =>
      injection h with h
      subst h
      apply errStep_binary_register_operation vm _ _
      intro w r0 r1
      cases w.interpreter.read_u32 (w.read_user_register_value r1) <;> simp only
      · exact errStep_write_error w .Memory (by simp)
      · exact errStep_write_user w r0 _
    case SW =>
      injection h with h
      subst h
      apply errStep_binary_register_operation vm _ _
      intro w r0 r1
      cases w.interpreter.write_u32 (w.read_user_register_value r1)
        (w.read_user_register_value r0) <;> simp only
      · exact errStep_write_error w .Memory (by simp)
      · exact errStep_set_interpreter w _
    case LH =>
      injection h with h
      subst h
      apply errStep_binary_register_operation vm _ _
      intro w r0 r1
      cases w.interpreter.read_u16 (w.read_user_register_value r1) <;> simp only
      · exact errStep_write_error w .Memory (by simp)
      · exact errStep_write_user w r0 _
    case SH =>
      injection h with h
      subst h
      apply errStep_binary_register_operation vm _ _
      intro w r0 r1
      cases w.interpreter.write_u16 (w.read_user_register_value r1)
        (w.read_user_register_value r0 &&& 0x0000FFFF) <;> simp only
      · exact errStep_write_error w .Memory (by simp)
      · exact errStep_set_interpreter w _
    case LB =>
      injection h with h
      subst h
      apply errStep_binary_register_operation vm _ _
      intro w r0 r1
      cases w.interpreter.read_u8 (w.read_user_register_value r1) <;> simp only
      · exact errStep_write_error w .Memory (by simp)
      · exact errStep_write_user w r0 _
    case SB =>
      injection h with h
      subst h
      apply errStep_binary_register_operation vm _ _
      intro w r0 r1
      cases w.interpreter.write_u8 (w.read_user_register_value r1)
        (w.read_user_register_value r0 &&& 0x000000FF) <;> simp only
      · exact errStep_write_error w .Memory (by simp)
      · exact errStep_set_interpreter w _
    case LI =>
      rcases hr : Register.from_u8 (get_register_and_twos_complement_immediate instruction).1
        with _ | r <;> rw [hr] at h <;> simp only at h <;> injection h with h <;> subst h
      · exact errStep_write_error vm .Register (by simp)
      · exact errStep_write_user vm r _
    case LWI =>
      injection h with h
      subst h
      apply errStep_binary_register_and_immediate_operation vm _ _
      intro w r i
      cases w.interpreter.read_u32 i <;> simp only
      · exact errStep_write_error w .Memory (by simp)
      · exact errStep_write_user w r _
    case SWI =>
      injection h with h
      subst h
      apply errStep_binary_register_and_immediate_operation vm _ _
      intro w r i
      cases w.interpreter.write_u32 i (w.read_user_register_value r) <;> simp only
      · exact errStep_write_error w .Memory (by simp)
      · exact errStep_set_interpreter w _
    case LHI =>
      injection h with h
      subst h
      apply errStep_binary_register_and_immediate_operation vm _ _
      intro w r i
      cases w.interpreter.read_u16 i <;> simp only
      · exact errStep_write_error w .Memory (by simp)
      · exact errStep_write_user w r _
    case SHI =>
      injection h with h
      subst h
      apply errStep_binary_register_and_immediate_operation vm _ _
      intro w r i
      cases w.interpreter.write_u16 i (w.read_user_register_value r &&& 0x0000FFFF) <;>
        simp only
      · exact errStep_write_error w .Memory (by simp)
      · exact errStep_set_interpreter w _
    case LBI =>
      injection h with h
      subst h
      apply errStep_binary_register_and_immediate_operation vm _ _
      intro w r i
      cases w.interpreter.read_u8 i <;> simp only
      · exact errStep_write_error w .Memory (by simp)
      · exact errStep_write_user w r _
    case SBI =>
      injection h with h
      subst h
      apply errStep_binary_register_and_immediate_operation vm _ _
      intro w r i
      cases w.interpreter.write_u8 i (w.read_user_register_value r &&& 0x000000FF) <;>
        simp only
      · exact errStep_write_error w .Memory (by simp)
      · exact errStep_set_interpreter w _
    case ADD =>
      apply errStep_binary_register_operation_write0 vm instruction _ _ vm' h
      intro w x y q hq
      injection hq with hq
      subst hq
      exact errStep_refl w
    case SUB =>
      apply errStep_binary_register_operation_write0 vm instruction _ _ vm' h
      intro w x y q hq
      injection hq with hq
      subst hq
      exact errStep_refl w
    case MUL =>
      apply errStep_binary_register_operation_write0 vm instruction _ _ vm' h
      intro w x y q hq
      injection hq with hq
      subst hq
      exact errStep_refl w
    case DIV =>
      apply errStep_binary_register_operation_write0 vm instruction _ _ vm' h
      intro w x y q hq
      unfold divOp at hq
      injection hq with hq
      subst hq
      split
      · exact errStep_write_error w .DivisorNotZero (by simp)
      · exact errStep_refl w
    case ADDI =>
      apply errStep_binary_register_and_immediate_operation_write0 vm instruction _ _ vm' h
      intro w x y q hq
      injection hq with hq
      subst hq
      exact errStep_refl w
    case SUBI =>
      apply errStep_binary_register_and_immediate_operation_write0 vm instruction _ _ vm' h
      intro w x y q hq
      injection hq with hq
      subst hq
      exact errStep_refl w
    case MULI =>
      apply errStep_binary_register_and_immediate_operation_write0 vm instruction _ _ vm' h
      intro w x y q hq
      injection hq with hq
      subst hq
      exact errStep_refl w
    case DIVI =>
      apply errStep_binary_register_and_immediate_operation_write0 vm instruction _ _ vm' h
      intro w x y q hq
      unfold divOp at hq
      injection hq with hq
      subst hq
      split
      · exact errStep_write_error w .DivisorNotZero (by simp)
      · exact errStep_refl w
    case J =>
      rcases hr : Register.from_u8 (get_registers instruction) with _ | r <;>
        rw [hr] at h <;> simp only at h <;> injection h with h <;> subst h
      · exact errStep_write_error vm .Register (by simp)
      · exact errStep_write_ne vm .IP _ (by simp)
    case JI =>
      injection h with h
      subst h
      exact errStep_write_ne vm .IP _ (by simp)
    case JIL =>
      injection h with h
      subst h
      exact errStep_trans (errStep_write_ne vm .RA _ (by simp))
        (errStep_write_ne _ .IP _ (by simp))
    case JZI =>
      injection h with h
      subst h
      exact errStep_unary_check_write_ip vm instruction _
    case JNZI =>
      injection h with h
      subst h
      exact errStep_unary_check_write_ip vm instruction _
    case JLZI =>
      injection h with h
      subst h
      exact errStep_unary_check_write_ip vm instruction _
    case JGZI =>
      injection h with h
      subst h
      exact errStep_unary_check_write_ip vm instruction _
    case AND =>
      apply errStep_binary_register_operation_write0 vm instruction _ _ vm' h
      intro w x y q hq
      injection hq with hq
      subst hq
      exact errStep_refl w
    case OR =>
      apply errStep_binary_register_operation_write0 vm instruction _ _ vm' h
      intro w x y q hq
      injection hq with hq
      subst hq
      exact errStep_refl w
    case XOR =>
      apply errStep_binary_register_operation_write0 vm instruction _ _ vm' h
      intro w x y q hq
      injection hq with hq
      subst hq
      exact errStep_refl w
    case NOT =>
      rcases hr : Register.from_u8 (get_registers instruction) with _ | r <;>
        rw [hr] at h <;> simp only at h <;> injection h with h <;> subst h
      · exact errStep_write_error vm .Register (by simp)
      · exact errStep_write_user vm r _
    case SRL =>
      apply errStep_binary_register_operation_write0 vm instruction _ _ vm' h
      intro w x y q hq
      unfold srlOp at hq
      split at hq
      · injection hq with hq
        subst hq
        exact errStep_refl w
      · exact absurd hq (by simp)
    case SLL =>
      apply errStep_binary_register_operation_write0 vm instruction _ _ vm' h
      intro w x y q hq
      unfold sllOp at hq
      split at hq
      · injection hq with hq
        subst hq
        exact errStep_refl w
      · exact absurd hq (by simp)
    case SRLI =>
      apply errStep_binary_register_and_immediate_operation_write0 vm instruction _ _ vm' h
      intro w x y q hq
      unfold srlOp at hq
      split at hq
      · injection hq with hq
        subst hq
        exact errStep_refl w
      · exact absurd hq (by simp)
    case SLLI =>
      apply errStep_binary_register_and_immediate_operation_write0 vm instruction _ _ vm' h
      intro w x y q hq
      unfold sllOp at hq
      split at hq
      · injection hq with hq
        subst hq
        exact errStep_refl w
      · exact absurd hq (by simp)

/-- When the loop stops from a state with `ERR = 0`, the returned value is
`R1` under `ERR = 0` and `ERROR_START_NUM + ERR` with `ERR ∈ {1..6}`
otherwise. -/
theorem execLoop_ret (fuel : Nat) (vm : VirtualMachine) (v : Nat)
    (vm' : VirtualMachine) (hstart : vm.read_register_value .ERR = 0)
    (h : execLoop fuel vm = .ret v vm') :
    (vm'.read_register_value .ERR = 0 → v = vm'.read_register_value .R1) ∧
    (vm'.read_register_value .ERR ≠ 0 →
      v = ERROR_START_NUM + vm'.read_register_value .ERR ∧
      1 ≤ vm'.read_register_value .ERR ∧ vm'.read_register_value .ERR ≤ 6) := by
  induction fuel generalizing vm with
  | zero => exact absurd h (by simp [execLoop])
  | succ fuel ih =>
      rw [execLoop] at h
      rcases hf : vm.interpreter.read_u32 (vm.read_register_value .IP) with _ | instr <;>
        rw [hf] at h <;> simp only at h
      · unfold finishRun VirtualMachine.exitValue at h
        injection h with hv hvm
        subst hvm
        split at hv <;> subst hv
        · refine ⟨fun _ => rfl, fun hne => absurd (by assumption) hne⟩
        · constructor
          · intro h0
            exact absurd h0 (by assumption)
          · intro _
            refine ⟨by omega, ?_, ?_⟩ <;>
              unfold VirtualMachine.write_error <;>
              simp [VmError.toNat]
      · rcases hi : interpret_instruction vm instr with _ | vm1 <;>
          rw [hi] at h <;> simp only at h
        · exact absurd h (by simp)
        · have hstep := interpret_instruction_errStep vm instr vm1 hi
          split at h
          · unfold finishRun VirtualMachine.exitValue at h
            injection h with hv hvm
            subst hvm
            split at hv <;> subst hv
            · refine ⟨fun _ => rfl, fun hne => absurd (by assumption) hne⟩
            · constructor
              · intro h0
                exact absurd h0 (by assumption)
              · intro hne
                refine ⟨by omega, ?_⟩
                rcases hstep with hs | hs
                · rw [hstart] at hs
                  exact absurd hs hne
                · exact hs
          · rename_i hcont
            have herr1 : vm1.read_register_value .ERR = 0 := by
              by_contra hne
              exact hcont (Or.inl (by simpa [VmError.toNat] using hne))
            have herr2 : (vm1.write_register_value .IP
                ((vm1.read_register_value .IP + 4) % 4294967296)).read_register_value .ERR
                  = 0 := by
              simpa using herr1
            exact ih _ herr2 h

/-- C1: when the execute loop stops, the value returned by `execute` is the
value of register `R1` if the `ERR` register equals `NoError` (0), and
otherwise is 32000 plus the numeric value of `ERR`, where `ERR` lies in
`{1..6}` (`OpCode`, `Register`, `Syscall`, `Memory`, `ReadonlyRegister`,
`DivisorNotZero`). -/
theorem execute_return_value (fuel : Nat) (vm : VirtualMachine) (pos v : Nat)
    (vm' : VirtualMachine) (h : execute fuel vm pos = .ret v vm') :
    (vm'.read_register_value .ERR = VmError.NoError.toNat →
      v = vm'.read_register_value .R1) ∧
    (vm'.read_register_value .ERR ≠ VmError.NoError.toNat →
      v = ERROR_START_NUM + vm'.read_register_value .ERR ∧
      1 ≤ vm'.read_register_value .ERR ∧ vm'.read_register_value .ERR ≤ 6) := by
  unfold execute at h
  exact execLoop_ret fuel _ v vm' (by simp [VmError.toNat]) h

/-- A dividend of 20, a divisor register holding 0 and a `DIV`: the machine
stops with `ERR = DivisorNotZero`. -/
def c1Program : List Nat := wordsToBytes
  [create_instruction_register_and_immediate .LI .R0 20,
   create_instruction_register_and_immediate .LI .R1 0,
   create_instruction_two_registers .DIV .R0 .R1,
   create_instruction_register_and_immediate .LI .R1 0,
   create_instruction_immediate .SYSCALLI 0]

/-- The final state of running `c1Program` (used to witness `execute_return_value`). -/
def c1FinalVm : VirtualMachine :=
  match execute 5 (vmOfBytes c1Program) 0 with
  | .ret _ vm => vm
  | _ => vmOfBytes []

theorem execute_return_value_witness :
    32006 = ERROR_START_NUM + c1FinalVm.read_register_value .ERR ∧
    1 ≤ c1FinalVm.read_register_value .ERR ∧ c1FinalVm.read_register_value .ERR ≤ 6 :=
  (execute_return_value 5 (vmOfBytes c1Program) 0 32006 c1FinalVm rfl).2 (by decide)

/-! ### Decoding an encoded instruction recovers its fields -/

theorem get_opcode_create_two_registers (op : OpCode) (r0 r1 : Register) :
    get_opcode (create_instruction_two_registers op r0 r1) = op.toNat := by
  rw [create_two_registers_eq, get_opcode_eq]
  have h0 := opCode_toNat_lt op
  have h1 := register_toNat_lt r0
  have h2 := register_toNat_lt r1
  omega

theorem get_two_registers_create (op : OpCode) (r0 r1 : Register) :
    get_two_registers (create_instruction_two_registers op r0 r1) =
      (r0.toNat, r1.toNat) := by
  rw [create_two_registers_eq, get_two_registers_eq, Prod.mk.injEq]
  have h0 := opCode_toNat_lt op
  have h1 := register_toNat_lt r0
  have h2 := register_toNat_lt r1
  refine ⟨?_, ?_⟩ <;> omega

theorem get_opcode_create_register_and_immediate (op : OpCode) (r : Register)
    (imm : Nat) :
    get_opcode (create_instruction_register_and_immediate op r imm) = op.toNat := by
  rw [create_register_and_immediate_eq, get_opcode_eq]
  have h0 := opCode_toNat_lt op
  have h1 := register_toNat_lt r
  have h2 : imm % 1048576 < 1048576 := Nat.mod_lt imm (by norm_num)
  omega

theorem get_register_and_immediate_create (op : OpCode) (r : Register) (imm : Nat) :
    get_register_and_immediate (create_instruction_register_and_immediate op r imm) =
      (r.toNat, imm % 1048576) := by
  rw [create_register_and_immediate_eq, get_register_and_immediate_eq, Prod.mk.injEq]
  have h0 := opCode_toNat_lt op
  have h1 := register_toNat_lt r
  have h2 : imm % 1048576 < 1048576 := Nat.mod_lt imm (by norm_num)
  refine ⟨?_, ?_⟩ <;> omega

theorem get_register_and_twos_complement_immediate_create (op : OpCode)
    (r : Register) (imm : Nat) :
    get_register_and_twos_complement_immediate
        (create_instruction_register_and_immediate op r imm) =
      (r.toNat,
       if imm % 1048576 < 524288 then imm % 1048576 else imm % 1048576 + 0xFFF00000) := by
  rw [create_register_and_immediate_eq, get_register_and_twos_complement_immediate_eq,
    Prod.mk.injEq]
  have h0 := opCode_toNat_lt op
  have h1 := register_toNat_lt r
  have h2 : imm % 1048576 < 1048576 := Nat.mod_lt imm (by norm_num)
  have he : (op.toNat * 16777216 + r.toNat * 1048576 + imm % 1048576) % 1048576 =
      imm % 1048576 := by omega
  refine ⟨by omega, ?_⟩
  rw [he]

theorem get_opcode_create_register (op : OpCode) (r : Register) :
    get_opcode (create_instruction_register op r) = op.toNat := by
  rw [create_register_eq, get_opcode_eq]
  have h0 := opCode_toNat_lt op
  have h1 := register_toNat_lt r
  omega

theorem get_registers_create (op : OpCode) (r : Register) :
    get_registers (create_instruction_register op r) = r.toNat := by
  rw [create_register_eq, get_registers_eq]
  have h0 := opCode_toNat_lt op
  have h1 := register_toNat_lt r
  omega

theorem get_opcode_create_immediate (op : OpCode) (imm : Nat) (h : imm < 16777216) :
    get_opcode (create_instruction_immediate op imm) = op.toNat := by
  rw [create_immediate_eq op imm h, get_opcode_eq]
  have h0 := opCode_toNat_lt op
  omega

theorem get_immediate_create (op : OpCode) (imm : Nat) (h : imm < 16777216) :
    get_immediate (create_instruction_immediate op imm) = imm := by
  rw [create_immediate_eq op imm h, get_immediate_eq]
  have h0 := opCode_toNat_lt op
  omega

/-- C2: a user-code write whose destination is `IP` or `ERR` sets
`ERR = ReadonlyRegister` and leaves every register other than `ERR` (in
particular the targeted `IP`) unchanged; a user-code write to any other
register (R0-R7, SP, and in particular RA) stores the value and leaves
every other register — `ERR` included, so `ERR` stays `NoError` — unchanged. -/
theorem write_user_register_semantics (vm : VirtualMachine) (reg : Register) (v : Nat) :
    ((reg = .IP ∨ reg = .ERR) →
      ((vm.write_user_register_value reg v).read_register_value .ERR =
          VmError.ReadonlyRegister.toNat ∧
        ∀ r : Register, r ≠ .ERR →
          (vm.write_user_register_value reg v).read_register_value r =
            vm.read_register_value r)) ∧
    (reg ≠ .IP → reg ≠ .ERR →
      ((vm.write_user_register_value reg v).read_register_value reg = v ∧
        ∀ r : Register, r ≠ reg →
          (vm.write_user_register_value reg v).read_register_value r =
            vm.read_register_value r)) := by
  constructor
  · intro hro
    have hr : VirtualMachine.is_readonly reg = true := by
      rcases hro with h | h <;> subst h <;> rfl
    unfold VirtualMachine.write_user_register_value
    rw [hr]
    simp only [if_true]
    unfold VirtualMachine.write_error
    constructor
    · simp [VmError.toNat]
    · intro r hrne
      simp only [read_register_write]
      rw [if_neg hrne]
  · intro h1 h2
    have hr : VirtualMachine.is_readonly reg = false := by
      cases reg <;> first
        | rfl
        | exact absurd rfl h1
        | exact absurd rfl h2
    unfold VirtualMachine.write_user_register_value
    rw [hr]
    simp only [Bool.false_eq_true, if_false]
    constructor
    · simp [read_register_write]
    · intro r hrne
      simp only [read_register_write]
      rw [if_neg hrne]

theorem write_user_register_semantics_witness :
    ((vmOfBytes []).write_user_register_value .IP 7).read_register_value .ERR =
        VmError.ReadonlyRegister.toNat ∧
      ((vmOfBytes []).write_user_register_value .IP 7).read_register_value .IP =
        (vmOfBytes []).read_register_value .IP ∧
      ((vmOfBytes []).write_user_register_value .RA 9).read_register_value .RA = 9 ∧
      ((vmOfBytes []).write_user_register_value .RA 9).read_register_value .ERR =
        (vmOfBytes []).read_register_value .ERR :=
  ⟨((write_user_register_semantics (vmOfBytes []) .IP 7).1 (Or.inl rfl)).1,
   ((write_user_register_semantics (vmOfBytes []) .IP 7).1 (Or.inl rfl)).2 .IP
     (by decide),
   ((write_user_register_semantics (vmOfBytes []) .RA 9).2 (by decide) (by decide)).1,
   ((write_user_register_semantics (vmOfBytes []) .RA 9).2 (by decide) (by decide)).2 .ERR
     (by decide)⟩

/-! ### Division by zero -/

theorem not_readonly_ne_err {r : Register} (h : VirtualMachine.is_readonly r = false) :
    r ≠ .ERR := by
  cases r <;> simp_all [VirtualMachine.is_readonly]

/-- Counterexample to C3 as stated: a `DIV` whose destination is the
read-only `IP` and whose divisor register holds 0 ends the step with
`ERR = ReadonlyRegister` (the destination write overwrites the
`DivisorNotZero` code), not `ERR = DivisorNotZero`. -/
theorem div_zero_readonly_destination :
    (interpret_instruction (vmOfBytes [])
        (create_instruction_two_registers .DIV .IP .R0)).map
      (fun w => w.read_register_value .ERR) = some VmError.ReadonlyRegister.toNat ∧
    (vmOfBytes []).read_register_value .R0 = 0 ∧
    VmError.ReadonlyRegister.toNat ≠ VmError.DivisorNotZero.toNat := by
  refine ⟨rfl, rfl, by decide⟩

/-- C3 (amended): for `DIV`/`DIVI` with a zero divisor and a destination
register that is not read-only, the step sets `ERR = DivisorNotZero`,
writes 0 into the destination, and the loop stops right after that step
with exit value `DivisorNotZero + 32000` (no host panic). -/
theorem div_zero_sets_divisor_error (fuel : Nat) (vm : VirtualMachine)
    (r0 r1 : Register) (imm : Nat) :
    (VirtualMachine.is_readonly r0 = false →
      vm.interpreter.read_u32 (vm.read_register_value .IP) =
        some (create_instruction_two_registers .DIV r0 r1) →
      vm.read_register_value r1 = 0 →
      execLoop (fuel + 1) vm =
          .ret (VmError.DivisorNotZero.toNat + ERROR_START_NUM)
            ((vm.write_error .DivisorNotZero).write_register_value r0 0) ∧
        ((vm.write_error .DivisorNotZero).write_register_value r0 0).read_register_value
          .ERR = VmError.DivisorNotZero.toNat ∧
        ((vm.write_error .DivisorNotZero).write_register_value r0 0).read_register_value
          r0 = 0) ∧
    (VirtualMachine.is_readonly r0 = false →
      vm.interpreter.read_u32 (vm.read_register_value .IP) =
        some (create_instruction_register_and_immediate .DIVI r0 imm) →
      imm % 1048576 = 0 →
      execLoop (fuel + 1) vm =
          .ret (VmError.DivisorNotZero.toNat + ERROR_START_NUM)
            ((vm.write_error .DivisorNotZero).write_register_value r0 0) ∧
        ((vm.write_error .DivisorNotZero).write_register_value r0 0).read_register_value
          .ERR = VmError.DivisorNotZero.toNat ∧
        ((vm.write_error .DivisorNotZero).write_register_value r0 0).read_register_value
          r0 = 0) := by
  have hne : VirtualMachine.is_readonly r0 = false → r0 ≠ Register.ERR :=
    fun h => not_readonly_ne_err h
  constructor
  · intro h0 hf hd
    have herr : ((vm.write_error .DivisorNotZero).write_register_value r0 0).read_register_value
        .ERR = VmError.DivisorNotZero.toNat := by
      simp only [read_register_write]
      rw [if_neg (fun he => hne h0 he.symm)]
      unfold VirtualMachine.write_error
      simp [VmError.toNat]
    have hstep : interpret_instruction vm (create_instruction_two_registers .DIV r0 r1) =
        some ((vm.write_error .DivisorNotZero).write_register_value r0 0) := by
      unfold interpret_instruction
      rw [get_opcode_create_two_registers, opCode_from_u8_toNat]
      simp only
      unfold binary_register_operation_write0
      rw [get_two_registers_create]
      simp only [register_from_u8_toNat]
      unfold divOp
      simp only [read_user_eq_read, hd, if_pos rfl]
      unfold VirtualMachine.write_user_register_value
      rw [h0]
      simp
    refine ⟨?_, herr, by simp⟩
    rw [execLoop, hf]
    simp only [hstep]
    rw [if_pos (Or.inl (by rw [herr]; simp [VmError.toNat]))]
    unfold finishRun VirtualMachine.exitValue
    rw [herr]
    simp [VmError.toNat, ERROR_START_NUM]
  · intro h0 hf hd
    have herr : ((vm.write_error .DivisorNotZero).write_register_value r0 0).read_register_value
        .ERR = VmError.DivisorNotZero.toNat := by
      simp only [read_register_write]
      rw [if_neg (fun he => hne h0 he.symm)]
      unfold VirtualMachine.write_error
      simp [VmError.toNat]
    have hstep : interpret_instruction vm
        (create_instruction_register_and_immediate .DIVI r0 imm) =
        some ((vm.write_error .DivisorNotZero).write_register_value r0 0) := by
      unfold interpret_instruction
      rw [get_opcode_create_register_and_immediate, opCode_from_u8_toNat]
      simp only
      unfold binary_register_and_immediate_operation_write0
      rw [get_register_and_immediate_create]
      simp only [register_from_u8_toNat]
      unfold divOp
      simp only [read_user_eq_read, hd, if_pos rfl]
      unfold VirtualMachine.write_user_register_value
      rw [h0]
      simp
    refine ⟨?_, herr, by simp⟩
    rw [execLoop, hf]
    simp only [hstep]
    rw [if_pos (Or.inl (by rw [herr]; simp [VmError.toNat]))]
    unfold finishRun VirtualMachine.exitValue
    rw [herr]
    simp [VmError.toNat, ERROR_START_NUM]

/-- A one-instruction program for the `div_zero_sets_divisor_error` witness. -/
def c3Program : List Nat :=
  wordsToBytes [create_instruction_two_registers .DIV .R0 .R1]

theorem div_zero_sets_divisor_error_witness :
    execLoop 1 (vmOfBytes c3Program) =
        .ret (VmError.DivisorNotZero.toNat + ERROR_START_NUM)
          (((vmOfBytes c3Program).write_error .DivisorNotZero).write_register_value .R0 0) ∧
      (((vmOfBytes c3Program).write_error .DivisorNotZero).write_register_value
        .R0 0).read_register_value .ERR = VmError.DivisorNotZero.toNat ∧
      (((vmOfBytes c3Program).write_error .DivisorNotZero).write_register_value
        .R0 0).read_register_value .R0 = 0 :=
  (div_zero_sets_divisor_error 0 (vmOfBytes c3Program) .R0 .R1 0).1 rfl rfl rfl

/-! ### Sign-extended `LI` vs zero-extended immediates -/

/-- C4: the `LI` decoder sign-extends its 20-bit immediate field (a value
with bit 19 set gains the high mask `0xFFF00000 = 2^32 - 2^20`, which is
two's-complement sign extension), so `LI` of encoding `0xFFFFF` writes
`0xFFFFFFFF`; every other register-plus-immediate instruction decodes
through `get_register_and_immediate`, whose immediate is the plain 20-bit
field value (zero-extension) — e.g. `ADDI` adds exactly `imm % 2^20`. -/
theorem li_sign_extends_others_zero_extend :
    (∀ instr : Nat,
      (get_register_and_twos_complement_immediate instr).2 =
        (if instr % 1048576 < 524288 then instr % 1048576
         else instr % 1048576 + 0xFFF00000)) ∧
    (∀ instr : Nat, (get_register_and_immediate instr).2 = instr % 1048576) ∧
    (∀ (vm : VirtualMachine) (r : Register), VirtualMachine.is_readonly r = false →
      interpret_instruction vm
          (create_instruction_register_and_immediate .LI r 0xFFFFF) =
        some (vm.write_register_value r 0xFFFFFFFF)) ∧
    (∀ (vm : VirtualMachine) (r : Register) (imm : Nat),
      VirtualMachine.is_readonly r = false →
      interpret_instruction vm
          (create_instruction_register_and_immediate .ADDI r imm) =
        some (vm.write_register_value r
          ((vm.read_register_value r + imm % 1048576) % 4294967296))) := by
  refine ⟨?_, ?_, ?_, ?_⟩
  · intro instr
    rw [get_register_and_twos_complement_immediate_eq]
  · intro instr
    rw [get_register_and_immediate_eq]
  · intro vm r h
    unfold interpret_instruction
    rw [get_opcode_create_register_and_immediate, opCode_from_u8_toNat]
    simp only
    rw [get_register_and_twos_complement_immediate_create]
    simp only [register_from_u8_toNat]
    unfold VirtualMachine.write_user_register_value
    rw [h]
    norm_num
  · intro vm r imm h
    unfold interpret_instruction
    rw [get_opcode_create_register_and_immediate, opCode_from_u8_toNat]
    simp only
    unfold binary_register_and_immediate_operation_write0
    rw [get_register_and_immediate_create]
    simp only [register_from_u8_toNat]
    unfold VirtualMachine.write_user_register_value
    rw [h]
    simp

theorem li_sign_extends_others_zero_extend_witness :
    interpret_instruction (vmOfBytes [])
        (create_instruction_register_and_immediate .LI .R2 0xFFFFF) =
      some ((vmOfBytes []).write_register_value .R2 0xFFFFFFFF) ∧
    interpret_instruction (vmOfBytes [])
        (create_instruction_register_and_immediate .ADDI .R2 7) =
      some ((vmOfBytes []).write_register_value .R2
        (((vmOfBytes []).read_register_value .R2 + 7 % 1048576) % 4294967296)) :=
  ⟨li_sign_extends_others_zero_extend.2.2.1 (vmOfBytes []) .R2 rfl,
   li_sign_extends_others_zero_extend.2.2.2 (vmOfBytes []) .R2 7 rfl⟩

/-! ### Where a step can panic -/

theorem binary_register_operation_write0_none (vm : VirtualMachine) (i : Nat)
    (op : VirtualMachine → Nat → Nat → Option (VirtualMachine × Nat))
    (h : binary_register_operation_write0 vm i op = none) :
    ∃ r0 r1 : Register,
      Register.from_u8 (get_two_registers i).1 = some r0 ∧
      Register.from_u8 (get_two_registers i).2 = some r1 ∧
      op vm (vm.read_user_register_value r0) (vm.read_user_register_value r1) = none := by
  unfold binary_register_operation_write0 at h
  rcases h0 : Register.from_u8 (get_two_registers i).1 with _ | r0 <;>
    rw [h0] at h <;>
    rcases h1 : Register.from_u8 (get_two_registers i).2 with _ | r1 <;>
    rw [h1] at h <;> simp only at h
  · exact absurd h (by simp)
  · exact absurd h (by simp)
  · exact absurd h (by simp)
  · rcases hq : op vm (vm.read_user_register_value r0) (vm.read_user_register_value r1)
      with _ | q <;> rw [hq] at h <;> simp only at h
    · exact ⟨r0, r1, rfl, rfl, hq⟩
    · exact absurd h (by simp)

theorem binary_register_and_immediate_operation_write0_none (vm : VirtualMachine)
    (i : Nat) (op : VirtualMachine → Nat → Nat → Option (VirtualMachine × Nat))
    (h : binary_register_and_immediate_operation_write0 vm i op = none) :
    ∃ r : Register,
      Register.from_u8 (get_register_and_immediate i).1 = some r ∧
      op vm (vm.read_user_register_value r) (get_register_and_immediate i).2 = none := by
  unfold binary_register_and_immediate_operation_write0 at h
  rcases h0 : Register.from_u8 (get_register_and_immediate i).1 with _ | r <;>
    rw [h0] at h <;> simp only at h
  · exact absurd h (by simp)
  · rcases hq : op vm (vm.read_user_register_value r) (get_register_and_immediate i).2
      with _ | q <;> rw [hq] at h <;> simp only at h
    · exact ⟨r, rfl, hq⟩
    · exact absurd h (by simp)

/-- The `SRLI $r0, 32` program: the shift handler performs the host shift
`x >> 32`, which overflows the `u32` width. -/
def c5Instr : Nat := create_instruction_register_and_immediate .SRLI .R0 32

def c5Program : List Nat := wordsToBytes [c5Instr]

/-- Counterexample to C5 as stated: executing `SRLI $r0, 32` is a host
panic (an overflowing shift in a debug build), not a structured `ERR`. -/
theorem srli_32_panics : (execute 1 (vmOfBytes c5Program) 0).isPanic = true := rfl

/-- C5 (amended): a dispatch step can fail to produce a next state only for
`SRL`/`SLL` with a source-register shift amount `≥ 32`, for `SRLI`/`SLLI`
with an immediate shift amount `≥ 32` (the source performs the host shift
directly), or for a `SYSCALLI` executed at `IP ≥ 0xFFFFFFFC` (the unchecked
`RA := IP + 4`; unreachable when memory is smaller than `2^32` bytes since
the fetch fails first). Every other instruction completes, halts, or
converts the fault into a structured `ERR` code. -/
theorem step_panic_only_shift_overflow (vm : VirtualMachine) (instr : Nat)
    (h : interpret_instruction vm instr = none) :
    ((OpCode.from_u8 (get_opcode instr) = some .SRL ∨
        OpCode.from_u8 (get_opcode instr) = some .SLL) ∧
      ∃ r1 : Register,
        Register.from_u8 (get_two_registers instr).2 = some r1 ∧
        32 ≤ vm.read_register_value r1) ∨
    ((OpCode.from_u8 (get_opcode instr) = some .SRLI ∨
        OpCode.from_u8 (get_opcode instr) = some .SLLI) ∧
      32 ≤ (get_register_and_immediate instr).2) ∨
    (OpCode.from_u8 (get_opcode instr) = some .SYSCALLI ∧
      4294967296 ≤ vm.read_register_value .IP + 4) := by
  unfold interpret_instruction at h
  rcases hop : OpCode.from_u8 (get_opcode instr) with _ | opcode <;>
    rw [hop] at h <;> simp only at h
  · exact absurd h (by simp)
  · cases opcode
    case SYSCALLI =>
        rcases hw : write_next_instruction_address vm with _ | vm1 <;>
          rw [hw] at h <;> simp only at h
        · unfold write_next_instruction_address at hw
          split at hw
          · exact absurd hw (by simp)
          · exact Or.inr (Or.inr ⟨rfl, by omega⟩)
        · exact absurd h (by simp)
    case CPY => exact absurd h (by simp)
    case LW => exact absurd h (by simp)
    case SW => exact absurd h (by simp)
    case LH => exact absurd h (by simp)
    case SH => exact absurd h (by simp)
    case LB => exact absurd h (by simp)
    case SB => exact absurd h (by simp)
    case LI =>
        rcases hr : Register.from_u8 (get_register_and_twos_complement_immediate instr).1
          with _ | r <;> rw [hr] at h <;> simp at h
    case LWI => exact absurd h (by simp)
    case SWI => exact absurd h (by simp)
    case LHI => exact absurd h (by simp)
    case SHI => exact absurd h (by simp)
    case LBI => exact absurd h (by simp)
    case SBI => exact absurd h (by simp)
    case ADD =>
        obtain ⟨r0, r1, _, _, hq⟩ := binary_register_operation_write0_none vm instr _ h
        simp at hq
    case SUB =>
        obtain ⟨r0, r1, _, _, hq⟩ := binary_register_operation_write0_none vm instr _ h
        simp at hq
    case MUL =>
        obtain ⟨r0, r1, _, _, hq⟩ := binary_register_operation_write0_none vm instr _ h
        simp at hq
    case DIV =>
        obtain ⟨r0, r1, _, _, hq⟩ := binary_register_operation_write0_none vm instr _ h
        unfold divOp at hq
        simp at hq
    case ADDI =>
        obtain ⟨r, _, hq⟩ :=
          binary_register_and_immediate_operation_write0_none vm instr _ h
        simp at hq
    case SUBI =>
        obtain ⟨r, _, hq⟩ :=
          binary_register_and_immediate_operation_write0_none vm instr _ h
        simp at hq
    case MULI =>
        obtain ⟨r, _, hq⟩ :=
          binary_register_and_immediate_operation_write0_none vm instr _ h
        simp at hq
    case DIVI =>
        obtain ⟨r, _, hq⟩ :=
          binary_register_and_immediate_operation_write0_none vm instr _ h
        unfold divOp at hq
        simp at hq
    case J =>
        rcases hr : Register.from_u8 (get_registers instr) with _ | r <;>
          rw [hr] at h <;> simp at h
    case JI => exact absurd h (by simp)
    case JIL => exact absurd h (by simp)
    case JZI => exact absurd h (by simp)
    case JNZI => exact absurd h (by simp)
    case JLZI => exact absurd h (by simp)
    case JGZI => exact absurd h (by simp)
    case AND =>
        obtain ⟨r0, r1, _, _, hq⟩ := binary_register_operation_write0_none vm instr _ h
        simp at hq
    case OR =>
        obtain ⟨r0, r1, _, _, hq⟩ := binary_register_operation_write0_none vm instr _ h
        simp at hq
    case XOR =>
        obtain ⟨r0, r1, _, _, hq⟩ := binary_register_operation_write0_none vm instr _ h
        simp at hq
    case NOT =>
        rcases hr : Register.from_u8 (get_registers instr) with _ | r <;>
          rw [hr] at h <;> simp at h
    case SRL =>
        obtain ⟨r0, r1, h0, h1, hq⟩ := binary_register_operation_write0_none vm instr _ h
        unfold srlOp at hq
        split at hq
        · exact absurd hq (by simp)
        · rename_i hy
          exact Or.inl ⟨Or.inl rfl, r1, h1, Nat.le_of_not_lt hy⟩
    case SLL =>
        obtain ⟨r0, r1, h0, h1, hq⟩ := binary_register_operation_write0_none vm instr _ h
        unfold sllOp at hq
        split at hq
        · exact absurd hq (by simp)
        · rename_i hy
          exact Or.inl ⟨Or.inr rfl, r1, h1, Nat.le_of_not_lt hy⟩
    case SRLI =>
        obtain ⟨r, h0, hq⟩ :=
          binary_register_and_immediate_operation_write0_none vm instr _ h
        unfold srlOp at hq
        split at hq
        · exact absurd hq (by simp)
        · exact Or.inr (Or.inl ⟨Or.inl rfl, by omega⟩)
    case SLLI =>
        obtain ⟨r, h0, hq⟩ :=
          binary_register_and_immediate_operation_write0_none vm instr _ h
        unfold sllOp at hq
        split at hq
        · exact absurd hq (by simp)
        · exact Or.inr (Or.inl ⟨Or.inr rfl, by omega⟩)

theorem step_panic_only_shift_overflow_witness :
    ((OpCode.from_u8 (get_opcode c5Instr) = some .SRL ∨
        OpCode.from_u8 (get_opcode c5Instr) = some .SLL) ∧
      ∃ r1 : Register,
        Register.from_u8 (get_two_registers c5Instr).2 = some r1 ∧
        32 ≤ (vmOfBytes []).read_register_value r1) ∨
    ((OpCode.from_u8 (get_opcode c5Instr) = some .SRLI ∨
        OpCode.from_u8 (get_opcode c5Instr) = some .SLLI) ∧
      32 ≤ (get_register_and_immediate c5Instr).2) ∨
    (OpCode.from_u8 (get_opcode c5Instr) = some .SYSCALLI ∧
      4294967296 ≤ (vmOfBytes []).read_register_value .IP + 4) :=
  step_panic_only_shift_overflow (vmOfBytes []) c5Instr rfl

/-! ### The print-capable syscall dispatcher -/

/-- Modelled from the spec: the syscall dispatcher of the later,
print-capable runtime (`libs/libcustomvmcpu/src/runtime.rs`, which is not
under `src/`; only its test `tests_compiler::execute_syscall_print` and the
CLI callers are).  Per §4.5 of the spec: `0` halts the VM; `1` treats `R1`
as a memory start and `R2` as a length and writes that byte slice to the
external stdout sink, continuing to run; any other value yields
`ERR = Syscall`.  Per §3, a read past the end of memory fails with
`Memory`.  The stdout sink is the appended-to byte list. -/
def syscallWithPrint (vm : VirtualMachine) (out : List Nat) (n : Nat) :
    VirtualMachine × List Nat :=
  match n with
  | 0 => ({ vm with running := false }, out)
  | 1 =>
      if vm.read_register_value .R1 + vm.read_register_value .R2 ≤
          vm.interpreter.memory.length then
        (vm, out ++ ((vm.interpreter.memory.drop (vm.read_register_value .R1)).take
          (vm.read_register_value .R2)))
      else
        (vm.write_error .Memory, out)
  | _ => (vm.write_register_value .ERR VmError.Syscall.toNat, out)

/-- C6: syscall `1` (with the addressed slice in bounds) appends the
`R2`-byte slice of memory starting at `R1` to the stdout sink and leaves
the machine state — in particular `running` and `ERR` — unchanged;
syscall `0` halts the VM and emits nothing; every other syscall number
sets `ERR = Syscall` and emits nothing. -/
theorem syscall_with_print_semantics (vm : VirtualMachine) (out : List Nat) (n : Nat) :
    (syscallWithPrint vm out 0 = ({ vm with running := false }, out)) ∧
    (vm.read_register_value .R1 + vm.read_register_value .R2 ≤
        vm.interpreter.memory.length →
      syscallWithPrint vm out 1 =
        (vm, out ++ ((vm.interpreter.memory.drop (vm.read_register_value .R1)).take
          (vm.read_register_value .R2)))) ∧
    (n ≠ 0 → n ≠ 1 →
      ((syscallWithPrint vm out n).1.read_register_value .ERR =
          VmError.Syscall.toNat ∧
        (syscallWithPrint vm out n).2 = out ∧
        (syscallWithPrint vm out n).1.running = vm.running)) := by
  refine ⟨rfl, ?_, ?_⟩
  · intro hle
    unfold syscallWithPrint
    rw [if_pos hle]
  · intro h0 h1
    match n, h0, h1 with
    | n + 2, _, _ =>
        unfold syscallWithPrint
        simp [VmError.toNat]

/-- Two bytes of memory printed through syscall 1, a halt through syscall
0 and an `ERR = Syscall` through syscall 5. -/
def c6Vm : VirtualMachine :=
  ((vmOfBytes [72, 105]).write_register_value .R1 0).write_register_value .R2 2

theorem syscall_with_print_semantics_witness :
    syscallWithPrint c6Vm [] 0 = ({ c6Vm with running := false }, []) ∧
    syscallWithPrint c6Vm [] 1 =
      (c6Vm, [] ++ ((c6Vm.interpreter.memory.drop
        (c6Vm.read_register_value .R1)).take (c6Vm.read_register_value .R2))) ∧
    (syscallWithPrint c6Vm [] 5).1.read_register_value .ERR = VmError.Syscall.toNat :=
  ⟨(syscall_with_print_semantics c6Vm [] 5).1,
   (syscall_with_print_semantics c6Vm [] 5).2.1 (by decide),
   ((syscall_with_print_semantics c6Vm [] 5).2.2 (by decide) (by decide)).1⟩

/-! ### The assembler (`libs/libcustomvmcpu/src/compiler.rs`)

Immediate-expression trees and the two-pass, fixed-point compiler.  The
`HashMap<String, u32>` label map is modelled as a function
`String → Option Nat` whose `insert` overwrites.  A `FoldResult` mirrors
`Option<u32>` plus the possibility of a host panic: `u32::wrapping_div`
panics when the divisor is 0. -/

/-- `parser::ImmediateExpr`. -/
inductive ImmediateExpr where
  | Int (value : Nat)
  | Add (e0 e1 : ImmediateExpr)
  | Sub (e0 e1 : ImmediateExpr)
  | Mul (e0 e1 : ImmediateExpr)
  | Div (e0 e1 : ImmediateExpr)
  | AddrToLabel (label : String)
deriving DecidableEq, Repr

/-- Outcome of constant folding: `Option::None` (an unresolved label,
propagated by `?`), a value, or a host panic. -/
inductive FoldResult where
  | panicked
  | unresolved
  | value (v : Nat)
deriving DecidableEq, Repr

/-- `Compiler::interpret_immediate_biop`: evaluate both operands (`?`
early-returns the first `None`), then combine. -/
def interpret_immediate_biop (r0 r1 : FoldResult) (fn_bi_op : Nat → Nat → FoldResult) :
    FoldResult :=
  match r0 with
  | .panicked => .panicked
  | .unresolved => .unresolved
  | .value v0 =>
      match r1 with
      | .panicked => .panicked
      | .unresolved => .unresolved
      | .value v1 => fn_bi_op v0 v1

/-- `Compiler::interpret_immediate`: wrapping 32-bit `+`, `-`, `*`, and
`u32::wrapping_div` for `/` — which, on `u32`, is plain division and
panics when the divisor is 0 (`.panicked`). -/
def interpret_immediate (labels : String → Option Nat) : ImmediateExpr → FoldResult
  | .Int v => .value v
  | .AddrToLabel l =>
      match labels l with
      | some v => .value v
      | none => .unresolved
  | .Add e0 e1 =>
      interpret_immediate_biop (interpret_immediate labels e0)
        (interpret_immediate labels e1)
        (fun x y => .value ((x + y) % 4294967296))
  | .Sub e0 e1 =>
      interpret_immediate_biop (interpret_immediate labels e0)
        (interpret_immediate labels e1)
        (fun x y => .value ((x + (4294967296 - y % 4294967296)) % 4294967296))
  | .Mul e0 e1 =>
      interpret_immediate_biop (interpret_immediate labels e0)
        (interpret_immediate labels e1)
        (fun x y => .value ((x * y) % 4294967296))
  | .Div e0 e1 =>
      interpret_immediate_biop (interpret_immediate labels e0)
        (interpret_immediate labels e1)
        (fun x y => if y = 0 then .panicked else .value (x / y))

/-- `parser::Expr` (top-level items; `Error` is the parse-error item). -/
inductive Expr where
  | InstructionRegister (op : OpCode) (reg : Register)
  | InstructionImmediate (op : OpCode) (imm : ImmediateExpr)
  | InstructionTwoRegisters (op : OpCode) (reg0 reg1 : Register)
  | InstructionRegisterAndImmediate (op : OpCode) (reg : Register) (imm : ImmediateExpr)
  | StoreI32 (imm : ImmediateExpr)
  | StoreStr (s : List Nat)
  | Label (name : String)
  | Error
deriving DecidableEq, Repr

/-- `calc_expr_size`: instructions and `.i32` are 4 bytes, `.str` its byte
length, labels and parse errors are 0. -/
def calc_expr_size : Expr → Nat
  | .InstructionTwoRegisters _ _ _ => 4
  | .InstructionRegisterAndImmediate _ _ _ => 4
  | .InstructionRegister _ _ => 4
  | .InstructionImmediate _ _ => 4
  | .StoreI32 _ => 4
  | .StoreStr s => s.length
  | .Label _ => 0
  | .Error => 0

/-- `CompileExprResult`, with `Panicked` for a fold that panicked. -/
inductive CompileExprResult where
  | CompileToNone
  | CompileToError
  | CompileToResult (bytes : List Nat)
  | Panicked
deriving DecidableEq, Repr

/-- `Compiler::compile_expr`: a `Label` unconditionally inserts
`labels[name] = prog_pos` (overwriting any earlier binding); instructions
and data encode their bytes, using the current label map for immediates. -/
def compile_expr (labels : String → Option Nat) (e : Expr) (prog_pos : Nat) :
    (String → Option Nat) × CompileExprResult :=
  match e with
  | .Label name =>
      (fun l => if l = name then some prog_pos else labels l, .CompileToNone)
  | .InstructionTwoRegisters op r0 r1 =>
      (labels, .CompileToResult (toLeBytes4 (create_instruction_two_registers op r0 r1)))
  | .InstructionRegister op r =>
      (labels, .CompileToResult (toLeBytes4 (create_instruction_register op r)))
  | .InstructionRegisterAndImmediate op r imm =>
      (labels,
       match interpret_immediate labels imm with
       | .value v =>
           .CompileToResult (toLeBytes4 (create_instruction_register_and_immediate op r v))
       | .unresolved => .CompileToError
       | .panicked => .Panicked)
  | .InstructionImmediate op imm =>
      (labels,
       match interpret_immediate labels imm with
       | .value v => .CompileToResult (toLeBytes4 (create_instruction_immediate op v))
       | .unresolved => .CompileToError
       | .panicked => .Panicked)
  | .StoreI32 imm =>
      (labels,
       match interpret_immediate labels imm with
       | .value v => .CompileToResult (toLeBytes4 v)
       | .unresolved => .CompileToError
       | .panicked => .Panicked)
  | .StoreStr s => (labels, .CompileToResult s)
  | .Error => (labels, .CompileToError)

/-- Label map plus the output byte buffer threaded through emission. -/
structure CompState where
  labels : String → Option Nat
  result : List Nat

/-- One `retain` pass of the emission loop: items are processed in order;
successful items write their bytes at their pre-assigned offset and are
dropped, `CompileToError` items are kept, a fold panic aborts. -/
def compilePass (st : CompState) :
    List (Nat × Expr) → Option (CompState × List (Nat × Expr))
  | [] => some (st, [])
  | (pos, e) :: rest =>
      match compile_expr st.labels e pos with
      | (labels1, .CompileToResult bs) =>
          compilePass ⟨labels1, writeBytes st.result pos bs⟩ rest
      | (labels1, .CompileToNone) => compilePass ⟨labels1, st.result⟩ rest
      | (labels1, .CompileToError) =>
          match compilePass ⟨labels1, st.result⟩ rest with
          | some (st1, kept) => some (st1, (pos, e) :: kept)
          | none => none
      | (_, .Panicked) => none

/-- The fixed-point loop: repeat `compilePass` until a pass removes no
item.  `fuel = length + 1` always suffices (each continuing pass strictly
shrinks the worklist). -/
def compileIter : Nat → CompState → List (Nat × Expr) →
    Option (CompState × List (Nat × Expr))
  | 0, st, wl => some (st, wl)
  | fuel + 1, st, wl =>
      match compilePass st wl with
      | none => none
      | some (st1, wl1) =>
          if wl1.length = wl.length then some (st1, wl1)
          else compileIter fuel st1 wl1

/-- Pass 1 layout: each item's offset is the running sum of the sizes
before it. -/
def layoutItems (pos : Nat) : List Expr → List (Nat × Expr)
  | [] => []
  | e :: rest => (pos, e) :: layoutItems (pos + calc_expr_size e) rest

/-- `compile`: filter out parse-error items, lay out, run the fixed-point
emission, then turn every still-unresolved item into a
`CannotCompileExpression` diagnostic.  The outer `Option` is a host panic;
the result is the emitted image (`none` when any diagnostic was produced)
together with the number of `CannotCompileExpression` diagnostics. -/
def compile (program : List Expr) : Option (Option (List Nat) × Nat) :=
  let prog := program.filter (fun e => e != Expr.Error)
  let wl := layoutItems 0 prog
  match compileIter (wl.length + 1) ⟨fun _ => none,
      List.replicate ((prog.map calc_expr_size).sum) 0⟩ wl with
  | none => none
  | some (st, remaining) =>
      some (if remaining.length = 0 then some st.result else none, remaining.length)

/-- C7: constant folding uses wrapping 32-bit arithmetic for `+`, `-`, `*`
(and ordinary unsigned division for `/`), but a division by zero during
folding is a host panic (`u32::wrapping_div` panics on a zero divisor) —
the compiler aborts instead of producing the `CannotCompileExpression`
diagnostic the claim describes. -/
theorem interpret_immediate_div_zero_panicked :
    interpret_immediate (fun _ => none)
        (.Div (.Int 1) (.Int 0)) = .panicked ∧
      compile [.StoreI32 (.Div (.Int 1) (.Int 0))] = none ∧
      interpret_immediate (fun _ => none)
        (.Add (.Int 4294967295) (.Int 1)) = .value 0 ∧
      interpret_immediate (fun _ => none)
        (.Sub (.Int 0) (.Int 1)) = .value 4294967295 ∧
      interpret_immediate (fun _ => none)
        (.Mul (.Int 2147483648) (.Int 2)) = .value 0 ∧
      interpret_immediate (fun _ => none)
        (.Div (.Int 7) (.Int 2)) = .value 3 :=
  ⟨rfl, rfl, rfl, rfl, rfl, rfl⟩

/-- Counterexample to C8 as stated: a program defining the label `a` twice
compiles to a binary image with zero diagnostics — redefinition is not
reported, and the reference resolves against the overwritten (last)
binding (offset 1, the second `a`, not offset 0, the first). -/
theorem duplicate_label_no_diagnostic :
    compile [.Label "a", .StoreStr [7], .Label "a",
        .StoreI32 (.AddrToLabel "a")] =
      some (some [7, 1, 0, 0, 0], 0) := rfl

/-- C8 (amended): duplicate label definitions are not detected: each
`Label` item unconditionally overwrites the map entry (the last definition
in program order wins, here offset 1 rather than 0), and compilation
succeeds — a binary image is produced and no diagnostic is reported. -/
theorem duplicate_label_overwrites (name : String) :
    compile [.Label name, .StoreStr [7], .Label name,
        .StoreI32 (.AddrToLabel name)] =
      some (some [7, 1, 0, 0, 0], 0) := by
  have h1 : (Expr.Label name != Expr.Error) = true := rfl
  have h2 : (Expr.StoreStr [7] != Expr.Error) = true := rfl
  have h3 : (Expr.StoreI32 (ImmediateExpr.AddrToLabel name) != Expr.Error) = true := rfl
  simp only [compile, List.filter, h1, h2, h3]
  simp [layoutItems, calc_expr_size, compileIter, compilePass, compile_expr,
    interpret_immediate, writeBytes, toLeBytes4]

/-! ### Out-of-bounds stores are atomic -/

/-- C9: a store (`SW`/`SH`/`SB` with the address in the second register,
or `SWI`/`SHI`/`SBI` with an immediate address) whose byte range is not
fully contained in memory produces exactly `vm.write_error .Memory`: the
`ERR` register becomes `Memory` and the memory is byte-for-byte untouched
(the failed slice write modifies nothing), so failure is atomic. -/
theorem store_out_of_bounds_atomic (vm : VirtualMachine) (r0 r1 : Register) (imm : Nat) :
    (vm.interpreter.memory.length < vm.read_register_value r1 + 4 →
      interpret_instruction vm (create_instruction_two_registers .SW r0 r1) =
        some (vm.write_error .Memory)) ∧
    (vm.interpreter.memory.length < vm.read_register_value r1 + 2 →
      interpret_instruction vm (create_instruction_two_registers .SH r0 r1) =
        some (vm.write_error .Memory)) ∧
    (vm.interpreter.memory.length < vm.read_register_value r1 + 1 →
      interpret_instruction vm (create_instruction_two_registers .SB r0 r1) =
        some (vm.write_error .Memory)) ∧
    (vm.interpreter.memory.length < imm % 1048576 + 4 →
      interpret_instruction vm (create_instruction_register_and_immediate .SWI r0 imm) =
        some (vm.write_error .Memory)) ∧
    (vm.interpreter.memory.length < imm % 1048576 + 2 →
      interpret_instruction vm (create_instruction_register_and_immediate .SHI r0 imm) =
        some (vm.write_error .Memory)) ∧
    (vm.interpreter.memory.length < imm % 1048576 + 1 →
      interpret_instruction vm (create_instruction_register_and_immediate .SBI r0 imm) =
        some (vm.write_error .Memory)) ∧
    (vm.write_error .Memory).interpreter = vm.interpreter ∧
    (vm.write_error .Memory).interpreter.memory = vm.interpreter.memory ∧
    (vm.write_error .Memory).read_register_value .ERR = VmError.Memory.toNat := by
  refine ⟨?_, ?_, ?_, ?_, ?_, ?_, rfl, rfl, rfl⟩
  · intro hlt
    unfold interpret_instruction
    rw [get_opcode_create_two_registers, opCode_from_u8_toNat]
    simp only
    unfold binary_register_operation
    rw [get_two_registers_create]
    simp only [register_from_u8_toNat, read_user_eq_read]
    unfold BinaryInterpreter.write_u32
    rw [if_neg (by omega)]
  · intro hlt
    unfold interpret_instruction
    rw [get_opcode_create_two_registers, opCode_from_u8_toNat]
    simp only
    unfold binary_register_operation
    rw [get_two_registers_create]
    simp only [register_from_u8_toNat, read_user_eq_read]
    unfold BinaryInterpreter.write_u16
    rw [if_neg (by omega)]
  · intro hlt
    unfold interpret_instruction
    rw [get_opcode_create_two_registers, opCode_from_u8_toNat]
    simp only
    unfold binary_register_operation
    rw [get_two_registers_create]
    simp only [register_from_u8_toNat, read_user_eq_read]
    unfold BinaryInterpreter.write_u8
    rw [if_neg (by omega)]
  · intro hlt
    unfold interpret_instruction
    rw [get_opcode_create_register_and_immediate, opCode_from_u8_toNat]
    simp only
    unfold binary_register_and_immediate_operation
    rw [get_register_and_immediate_create]
    simp only [register_from_u8_toNat, read_user_eq_read]
    unfold BinaryInterpreter.write_u32
    rw [if_neg (by omega)]
  · intro hlt
    unfold interpret_instruction
    rw [get_opcode_create_register_and_immediate, opCode_from_u8_toNat]
    simp only
    unfold binary_register_and_immediate_operation
    rw [get_register_and_immediate_create]
    simp only [register_from_u8_toNat, read_user_eq_read]
    unfold BinaryInterpreter.write_u16
    rw [if_neg (by omega)]
  · intro hlt
    unfold interpret_instruction
    rw [get_opcode_create_register_and_immediate, opCode_from_u8_toNat]
    simp only
    unfold binary_register_and_immediate_operation
    rw [get_register_and_immediate_create]
    simp only [register_from_u8_toNat, read_user_eq_read]
    unfold BinaryInterpreter.write_u8
    rw [if_neg (by omega)]

theorem store_out_of_bounds_atomic_witness :
    interpret_instruction (vmOfBytes []) (create_instruction_two_registers .SW .R0 .R1) =
        some ((vmOfBytes []).write_error .Memory) ∧
      interpret_instruction (vmOfBytes [])
          (create_instruction_register_and_immediate .SBI .R0 9) =
        some ((vmOfBytes []).write_error .Memory) ∧
      ((vmOfBytes []).write_error .Memory).interpreter.memory =
        (vmOfBytes []).interpreter.memory :=
  ⟨(store_out_of_bounds_atomic (vmOfBytes []) .R0 .R1 9).1 (by decide),
   (store_out_of_bounds_atomic (vmOfBytes []) .R0 .R1 9).2.2.2.2.2.1 (by decide),
   (store_out_of_bounds_atomic (vmOfBytes []) .R0 .R1 9).2.2.2.2.2.2.2.1⟩

/-! ### `execute` resets `running`, `IP` and `ERR` on entry -/

theorem VirtualMachine.eq_of (a b : VirtualMachine)
    (h1 : a.interpreter = b.interpreter) (h2 : a.registers = b.registers)
    (h3 : a.running = b.running) : a = b := by
  cases a
  cases b
  cases h1
  cases h2
  cases h3
  rfl

/-- C10: `execute(pos)` first sets `running = true`, `IP = pos` and
`ERR = NoError`, and only then enters the fetch loop; consequently the
result is independent of the `ERR`, `IP` and `running` values left behind
by a previous run, while all other registers and the memory carry over. -/
theorem execute_entry_reset (fuel : Nat) (vm : VirtualMachine) (pos : Nat) :
    (execute fuel vm pos = execLoop fuel
      { interpreter := vm.interpreter,
        registers := fun r => if r = .ERR then VmError.NoError.toNat
          else if r = .IP then pos else vm.registers r,
        running := true }) ∧
    ∀ (e i : Nat) (b : Bool),
      execute fuel
        { interpreter := vm.interpreter,
          registers := fun r => if r = .ERR then e
            else if r = .IP then i else vm.registers r,
          running := b } pos = execute fuel vm pos := by
  constructor
  · rfl
  · intro e i b
    have key : ∀ w1 w2 : VirtualMachine, w1 = w2 →
        execLoop fuel w1 = execLoop fuel w2 := fun _ _ h => by rw [h]
    unfold execute
    apply key
    apply VirtualMachine.eq_of
    · rfl
    · funext r
      simp only [VirtualMachine.write_register_value]
      by_cases h1 : r = Register.ERR
      · simp [h1]
      · by_cases h2 : r = Register.IP <;> simp [h1, h2]
    · rfl

end CustomVmCpu
